import Mathlib

/-!
Shallow embedding of `libw32/w32_io.c`

POSIX `stat`, `lstat`, `readlink`, `symlink` and `open` over a Win32 host.

* C strings are lists of characters without the terminating NUL (`CStr`);
  a character buffer of capacity `maxlen` is a list of exactly `maxlen`
  characters in which NUL may occur.
* An `int` result in signed-magnitude style (`-errno`, `0`, positive length)
  is a value of `Ret`.
* Every Win32 or shell call is a field of `Host`: the answer the host gives
  in the file-system state the call is made in.
* Constants of headers that are not part of the source file are fields of
  `Config` (path ceiling, `open` flag bits).
-/

set_option autoImplicit false

namespace Mcwin32

/-! ## C strings and character buffers -/

/-- The characters of a C string, terminator excluded. -/
abbrev CStr := List Char

/-- The string terminator. -/
def NUL : Char := Char.ofNat 0

/-- The C string held by a buffer: the characters before the first NUL. -/
def cstr (buf : List Char) : CStr := buf.takeWhile (fun c => c != NUL)

/-- C `strlen` on a buffer. A buffer without NUL yields its capacity (the
out-of-bounds read of the C function is not modelled). -/
def strlen (buf : List Char) : Nat := (cstr buf).length

/-- Character at index `i` of a C string; the terminator past its end. -/
def charAt (s : CStr) (i : Nat) : Char := s.getD i NUL

/-- Store `src` into `buf` from offset `off`, clipped at the capacity of
`buf`; every other cell keeps its content. -/
def poke (buf : List Char) (off : Nat) (src : List Char) : List Char :=
  buf.take off ++ src.take (buf.length - off) ++ buf.drop (off + src.length)

/-- C `strncpy(buf, path, maxlen)` followed by `buf[maxlen-1] = 0`: the
first `maxlen` cells are the characters of `path` padded with NUL, the last
cell is NUL. -/
def primeBuffer (path : CStr) (maxlen : Nat) : List Char :=
  ((path ++ List.replicate maxlen NUL).take maxlen).set (maxlen - 1) NUL

/-- C `strcpy(buf + off, s)`: the characters of `s` and a terminator. -/
def strcpyAt (buf : List Char) (off : Nat) (s : CStr) : List Char :=
  poke buf off (s ++ [NUL])

/-- A string copy bounded by `maxlen` cells that always terminates: at most
`maxlen - 1` characters and a NUL (how the shell link getters fill a buffer
of `maxlen` characters). -/
def boundedCopy (buf : List Char) (maxlen : Nat) (s : CStr) : List Char :=
  poke buf 0 (s.take (maxlen - 1) ++ [NUL])

/-- C `wcstombs(buf, w, maxlen)` where `s` is the multibyte form of `w`: at
most `maxlen` bytes are stored, the terminator only when it fits. -/
def wcstombs (buf : List Char) (s : CStr) (maxlen : Nat) : List Char :=
  if s.length < maxlen then poke buf 0 (s ++ [NUL]) else poke buf 0 (s.take maxlen)

/-- The macro `ISSLASH` of `win32_internal.h`. -/
def ISSLASH (c : Char) : Bool := c == '/' || c == '\\'

/-- ASCII lower-casing, as used by the case-insensitive comparison. -/
def lowerAscii (c : Char) : Char :=
  if 'A'.toNat ≤ c.toNat ∧ c.toNat ≤ 'Z'.toNat then Char.ofNat (c.toNat + 32) else c

/-- The macro `WIN32_STRICMP` (`stricmp`): equality ignoring ASCII case. -/
def WIN32_STRICMP_eq (a b : CStr) : Bool := a.map lowerAscii == b.map lowerAscii

/-- C `strrchr(name, c)`: the tail of `name` starting at the last `c`. -/
def strrchr : CStr → Char → Option CStr
  | [], _ => none
  | x :: xs, c =>
    match strrchr xs c with
    | some t => some t
    | none => if x == c then some (x :: xs) else none

/-- Modelled from the spec: `w32_dos2unix` of `win32_misc` (not in the source
file), which "normalizes directory-separator style in the output buffer":
every backslash of the string held by the buffer becomes a forward slash.
The cells from the terminator on are left alone. -/
def w32_dos2unix (buf : List Char) : List Char :=
  (cstr buf).map (fun c => if c == '\\' then '/' else c) ++ buf.drop (strlen buf)

/-- The scan of `w32_strslash` over the characters of a string: the tail
that starts at the first directory separator. -/
def w32_strslash.scan : CStr → Option CStr
  | [] => none
  | c :: cs => if ISSLASH c then some (c :: cs) else w32_strslash.scan cs

/-- Modelled from the spec: `w32_strslash` of `win32_misc` (not in the source
file): the tail of the string starting at its first directory separator,
`none` for a null argument or a string without separator. -/
def w32_strslash : Option CStr → Option CStr
  | none => none
  | some s => w32_strslash.scan s

/-! ## Error numbers and results -/

/-- The `errno` values the file assigns. -/
inductive Errno where
  | EFAULT | ENOENT | ENOTDIR | ENAMETOOLONG | EACCES | EIO | EINVAL
  | EEXIST | ELOOP | EBADF
  deriving DecidableEq, Repr

/-- An `int` result of an internal step: `err e` is the negative value
`-e`, `val n` the non-negative value `n`. -/
inductive Ret where
  | err (e : Errno)
  | val (n : Nat)
  deriving DecidableEq, Repr

/-- C test `ret > 0`. -/
def Ret.isPos : Ret → Bool
  | .val n => decide (0 < n)
  | .err _ => false

/-- C test `ret < 0`. -/
def Ret.isNeg : Ret → Bool
  | .val _ => false
  | .err _ => true

/-! ## Win32 constants (platform SDK values) -/

def FILE_ATTRIBUTE_READONLY : Nat := 0x1
def FILE_ATTRIBUTE_HIDDEN : Nat := 0x2
def FILE_ATTRIBUTE_SYSTEM : Nat := 0x4
def FILE_ATTRIBUTE_DIRECTORY : Nat := 0x10
def FILE_ATTRIBUTE_ARCHIVE : Nat := 0x20
def FILE_ATTRIBUTE_DEVICE : Nat := 0x40
def FILE_ATTRIBUTE_REPARSE_POINT : Nat := 0x400
def FILE_ATTRIBUTE_COMPRESSED : Nat := 0x800
def FILE_ATTRIBUTE_OFFLINE : Nat := 0x1000
def FILE_ATTRIBUTE_ENCRYPTED : Nat := 0x4000

def ERROR_FILE_NOT_FOUND : Nat := 2
def ERROR_PATH_NOT_FOUND : Nat := 3
def ERROR_ACCESS_DENIED : Nat := 5
def ERROR_SHARING_VIOLATION : Nat := 32

def IO_REPARSE_TAG_MOUNT_POINT : Nat := 0xA0000003
def IO_REPARSE_TAG_SYMLINK : Nat := 0xA000000C

def DRIVE_FIXED : Nat := 3

def FILE_TYPE_UNKNOWN : Nat := 0
def FILE_TYPE_DISK : Nat := 1
def FILE_TYPE_CHAR : Nat := 2
def FILE_TYPE_PIPE : Nat := 3
def FILE_TYPE_REMOTE : Nat := 0x8000

/-- C test `attrs & flag` on an attribute word. -/
def hasFlag (attrs flag : Nat) : Bool := attrs &&& flag != 0

/-- The macro `SHORTCUT_COOKIE`, `"L\0\0\0"`: the shortcut magic. -/
def SHORTCUT_COOKIE : List Char := ['L', NUL, NUL, NUL]

/-- The macro `CYGWIN_ATTRS`. -/
def CYGWIN_ATTRS : Nat := FILE_ATTRIBUTE_SYSTEM

/-- The macro `CYGWIN_COOKIE`: the plain-text marker of an old style link. -/
def CYGWIN_COOKIE : List Char := "!<symlink>".toList

/-- The candidate suffix tables `suffixes_null` and `suffixes_default`. -/
def suffixes_null : List CStr := [[]]

def suffixes_default : List CStr := [[], ".lnk".toList]

/-- The `suffixes` argument of `Readlink`: the null pointer, the sentinel
`(void *)-1`, or a table of the caller. -/
inductive Suffixes where
  | null
  | default
  | table (t : List CStr)

/-! ## The host -/

/-- Answer of `GetFileAttributes`: the attribute word, or `0xffffffff` with
the code `GetLastError` reports. -/
inductive AttrResult where
  | attrs (a : Nat)
  | failed (rc : Nat)
  deriving DecidableEq, Repr

/-- A file opened for reading by `CreateFile(… GENERIC_READ …)`: what the two
`ReadFile` calls of `Readlink` meet. -/
structure ReadHandle where
  /-- the bytes of the file -/
  content : List Char
  /-- whether the `ReadFile` of the header succeeds -/
  headerReadOk : Bool
  /-- whether the `ReadFile` of the remainder succeeds -/
  bodyReadOk : Bool
  deriving DecidableEq, Repr

/-- What `IShellLink` holds after `IPersistFile::Load`: the result code and
text of `GetPath` and of `GetDescription` (a getter that fails stores
nothing). -/
structure ShellLink where
  hresPath : Int
  path : CStr
  hresDesc : Int
  desc : CStr
  working : CStr
  deriving DecidableEq, Repr

/-- Answer of `DeviceIoControl(FSCTL_GET_REPARSE_POINT)`: the tag, the
`SubstituteNameLength` field, and the multibyte form of the wide string that
starts at the substitute-name offset of the path buffer. -/
structure ReparseData where
  ReparseTag : Nat
  SubstituteNameLength : Nat
  name : CStr
  deriving DecidableEq, Repr

/-- Outcome of the two host calls of `ReadReparse`. -/
inductive ReparseQuery where
  | openFailed
  | ioctlFailed
  | data (d : ReparseData)
  deriving DecidableEq, Repr

/-- The Win32 `FILETIME`. -/
structure FILETIME where
  dwLowDateTime : Nat
  dwHighDateTime : Nat
  deriving DecidableEq, Repr

/-- The fields of `WIN32_FIND_DATA` the file reads. -/
structure WIN32_FIND_DATA where
  dwFileAttributes : Nat
  ftCreationTime : FILETIME
  ftLastAccessTime : FILETIME
  ftLastWriteTime : FILETIME
  nFileSizeHigh : Nat
  nFileSizeLow : Nat
  deriving DecidableEq, Repr

/-- The fields of `BY_HANDLE_FILE_INFORMATION` the file reads. -/
structure BY_HANDLE_FILE_INFORMATION where
  dwFileAttributes : Nat
  ftCreationTime : FILETIME
  ftLastAccessTime : FILETIME
  ftLastWriteTime : FILETIME
  nFileSizeHigh : Nat
  nFileSizeLow : Nat
  nNumberOfLinks : Nat
  nFileIndexHigh : Nat
  nFileIndexLow : Nat
  deriving DecidableEq, Repr

/-- Outcome of the metadata open of `Stat`: `CreateFile` fails, or it
succeeds and `GetFileInformationByHandle` fails or yields a record. -/
inductive MetaQuery where
  | openFailed
  | infoFailed
  | info (fi : BY_HANDLE_FILE_INFORMATION)
  deriving DecidableEq, Repr

/-- The host in one file-system state: one field per host call of the file,
and the helpers of `win32_misc` it links against. -/
structure Host where
  /-- `GetFileAttributes(name)` with `GetLastError()` on failure -/
  GetFileAttributes : CStr → AttrResult
  /-- `CreateFile(name, GENERIC_READ, …, OPEN_EXISTING, …)`; `none` is
  `INVALID_HANDLE_VALUE` -/
  CreateFile_read : CStr → Option ReadHandle
  /-- `CoCreateInstance`, `QueryInterface` and `IPersistFile::Load(name)`;
  `none` when one of them fails -/
  ShellLink_Load : CStr → Option ShellLink
  /-- the reparse open and `DeviceIoControl` on `name` -/
  GetReparsePoint : CStr → ReparseQuery
  /-- `GetFullPathName(name, …)`: the absolute form; `none` is the result 0 -/
  GetFullPathName : CStr → Option CStr
  /-- `FindFirstFile(name, &fb)`; `none` is `INVALID_HANDLE_VALUE` -/
  FindFirstFile : CStr → Option WIN32_FIND_DATA
  /-- `GetDriveType(name)` -/
  GetDriveType : CStr → Nat
  /-- the metadata open of `Stat` and `GetFileInformationByHandle` -/
  OpenMetadata : CStr → MetaQuery
  /-- `GetBinaryType(name, …)` succeeds -/
  GetBinaryType : CStr → Bool
  /-- `FileTimeToLocalFileTime`, `FileTimeToSystemTime` and `mktime` on a
  non-zero file time; `none` when a conversion fails -/
  LocalTime : FILETIME → Option Int
  /-- the indeterminate content of the local `fb` of `Stat` when
  `FindFirstFile` stored nothing -/
  fb_indeterminate : WIN32_FIND_DATA
  /-- `w32_getuid()` -/
  w32_getuid : Int
  /-- `w32_getgid()` -/
  w32_getgid : Int
  /-- `w32_ino_gen(low, high)` -/
  w32_ino_gen : Nat → Nat → Nat
  /-- `w32_ino_hash(name)` -/
  w32_ino_hash : CStr → Nat
  /-- `w32_ino_file(name)` -/
  w32_ino_file : CStr → Nat
  /-- `_open(path, oflag, mode)`: a descriptor, or -1 with an errno -/
  true_open : CStr → Nat → Int → Except Errno Nat
  /-- `CoCreateInstance`, `QueryInterface` and `IPersistFile::Save(link)` of
  `CreateShortcut` all succeed -/
  ShellLink_Save : CStr → Bool
  /-- the bytes a saved shell link file holds after its first four (the
  header size `0x0000004C`, which is the shortcut magic) -/
  ShellLink_Image : ShellLink → List Char
  /-- `_get_osfhandle(fd)`; `none` is `INVALID_HANDLE_VALUE` -/
  get_osfhandle : Int → Option Nat
  /-- `GetFileType(handle)` -/
  GetFileType : Nat → Nat
  /-- `GetFileInformationByHandle(handle, &fi)`; `none` when it fails -/
  GetFileInformationByHandle : Nat → Option BY_HANDLE_FILE_INFORMATION
  /-- `xGetFinalPathNameByHandle(handle, …)`: the resolved file name; `none`
  when the result is 0 -/
  GetFinalPathNameByHandle : Nat → Option CStr

/-- Constants of headers outside the source file. -/
structure Config where
  /-- `WIN32_PATH_MAX`, the capacity of the path buffers -/
  WIN32_PATH_MAX : Nat
  /-- `MAX_PATH` -/
  MAX_PATH : Nat
  /-- `O_CREAT` -/
  O_CREAT : Nat
  /-- `O_EXCL` -/
  O_EXCL : Nat
  /-- `O_NOFOLLOW`; 0 when the extension is not defined -/
  O_NOFOLLOW : Nat
  /-- `WIN32_FILDES_MAX`, the end of the reserved descriptor range -/
  WIN32_FILDES_MAX : Int

/-! ## Link resolution -/

/-- The macro `SUCCEEDED`. -/
def SUCCEEDED (hres : Int) : Bool := decide (0 ≤ hres)

/-- `IsExtension(name, ext)`. -/
def IsExtension (name : CStr) (ext : Option CStr) : Bool :=
  match ext, strrchr name '.' with
  | some e, some dot => WIN32_STRICMP_eq dot e
  | _, _ => false

/-- `ReadReparse(name, buf, maxlen)`: 0 and the decoded text in `buf`, or -1. -/
def ReadReparse (host : Host) (name : CStr) (buf : List Char) (maxlen : Nat) :
    Int × List Char :=
  match host.GetReparsePoint name with
  | .openFailed => (-1, buf)
  | .ioctlFailed => (-1, buf)
  | .data d =>
    if d.ReparseTag = IO_REPARSE_TAG_SYMLINK then
      if d.SubstituteNameLength ≥ 4 then (0, wcstombs buf d.name maxlen) else (-1, buf)
    else if d.ReparseTag = IO_REPARSE_TAG_MOUNT_POINT then
      if d.SubstituteNameLength > 0 then (0, wcstombs buf d.name maxlen) else (-1, buf)
    else (-1, buf)

/-- `ReadShortcut(name, buf, maxlen)`: 0 and the target text in `buf`, or -1.
When the path is missing or empty the description is taken; an empty
description assigns `!S_OK`, which is 1. -/
def ReadShortcut (host : Host) (name : CStr) (buf : List Char) (maxlen : Nat) :
    Int × List Char :=
  match host.ShellLink_Load name with
  | none => (-1, buf)
  | some sl =>
    let buf1 := if SUCCEEDED sl.hresPath then boundedCopy buf maxlen sl.path else buf
    if !SUCCEEDED sl.hresPath || buf1.headD NUL == NUL then
      let buf2 := if SUCCEEDED sl.hresDesc then boundedCopy buf1 maxlen sl.desc else buf1
      let hres : Int := if buf2.headD NUL == NUL then 1 else sl.hresDesc
      (if SUCCEEDED hres then 0 else -1, buf2)
    else (0, buf1)

/-- The error `Readlink` records when `GetFileAttributes` fails with code
`rc`. -/
def Readlink.lastError (rc : Nat) : Errno :=
  if rc = ERROR_ACCESS_DENIED ∨ rc = ERROR_SHARING_VIOLATION then .EACCES
  else if rc = ERROR_PATH_NOT_FOUND then .ENOTDIR
  else if rc = ERROR_FILE_NOT_FOUND then .ENOENT
  else Errno.EIO

/-- Whether a header of `got` bytes starts with the shortcut magic. -/
def hasShortcutMagic (cookie : List Char) : Bool :=
  decide (4 ≤ cookie.length) && cookie.take 4 == SHORTCUT_COOKIE

/-- Whether a header is the complete plain-text marker. -/
def hasCygwinCookie (cookie : List Char) : Bool :=
  cookie.length == CYGWIN_COOKIE.length && cookie == CYGWIN_COOKIE

/-- The body of the suffix loop of `Readlink` once the attribute lookup of
the candidate in `buf` gave `attrs`; `ret` is the value recorded so far.
Every branch ends the loop. -/
def Readlink.classify (host : Host) (path : CStr) (maxlen : Nat) (attrs : Nat)
    (ret : Ret) (buf : List Char) : Ret × List Char :=
  if hasFlag attrs FILE_ATTRIBUTE_DIRECTORY || hasFlag attrs FILE_ATTRIBUTE_COMPRESSED ||
      hasFlag attrs FILE_ATTRIBUTE_DEVICE || hasFlag attrs FILE_ATTRIBUTE_ENCRYPTED then
    (.val 0, buf)
  else if hasFlag attrs FILE_ATTRIBUTE_REPARSE_POINT then
    let r := ReadReparse host path buf maxlen
    if r.1 < 0 then (.err Errno.EIO, r.2) else (.val (strlen r.2), r.2)
  else if hasFlag attrs FILE_ATTRIBUTE_OFFLINE then
    (.err .EACCES, buf)
  else if IsExtension (cstr buf) (some ".lnk".toList) ||
      (attrs &&& (FILE_ATTRIBUTE_HIDDEN ||| CYGWIN_ATTRS)) == CYGWIN_ATTRS then
    match host.CreateFile_read (cstr buf) with
    | none => (ret, buf)
    | some fh =>
      let cookie := fh.content.take CYGWIN_COOKIE.length
      if !fh.headerReadOk then (.err Errno.EIO, buf)
      else if hasShortcutMagic cookie then
        let r := ReadShortcut host (cstr buf) buf maxlen
        if r.1 < 0 then (.err Errno.EIO, r.2) else (.val (strlen r.2), r.2)
      else if hasFlag attrs CYGWIN_ATTRS && hasCygwinCookie cookie then
        if !fh.bodyReadOk then (.err Errno.EIO, buf)
        else
          let body := (fh.content.drop CYGWIN_COOKIE.length).take maxlen
          let n := (cstr body).length
          (if n = 0 then .err Errno.EIO else .val n, poke buf 0 body)
      else (.val 0, buf)
  else (.val 0, buf)

/-- The suffix loop of `Readlink`: `length` is the length of the primed
path, `ret` the value recorded so far. -/
def Readlink.loop (host : Host) (path : CStr) (maxlen length : Nat) :
    List CStr → Ret → List Char → Ret × List Char
  | [], ret, buf => (ret, buf)
  | suffix :: rest, ret, buf =>
    if length + suffix.length ≥ maxlen then
      Readlink.loop host path maxlen length rest (.err .ENAMETOOLONG) buf
    else
      let buf1 := strcpyAt buf length suffix
      match host.GetFileAttributes (cstr buf1) with
      | .failed rc =>
        Readlink.loop host path maxlen length rest (.err (Readlink.lastError rc)) buf1
      | .attrs a => Readlink.classify host path maxlen a ret buf1

/-- The table a `suffixes` argument stands for. -/
def Suffixes.resolve : Suffixes → List CStr
  | .null => suffixes_null
  | .default => suffixes_default
  | .table t => t

/-- `Readlink(path, suffixes, buf, maxlen)`: the result and the `maxlen`
cells of `buf` (they do not depend on what `buf` held before). -/
def Readlink (host : Host) (path : CStr) (suffixes : Suffixes) (maxlen : Nat) :
    Ret × List Char :=
  let buf := primeBuffer path maxlen
  let r := Readlink.loop host path maxlen (strlen buf) suffixes.resolve (.err .ENOENT) buf
  if r.1.isPos then (r.1, w32_dos2unix r.2) else r

/-- `w32_readlink(path, buf, maxlen)`: the return value (`-1` with its errno
as an error) and the cells of `buf` after the call; `none` is a null
pointer. -/
def w32_readlink (host : Host) (path : Option CStr) (buf : Option (List Char))
    (maxlen : Nat) : Except Errno Nat × Option (List Char) :=
  match path, buf with
  | some p, some _ =>
    match Readlink host p .default maxlen with
    | (.val 0, b) => (.error .EINVAL, some b)
    | (.val n, b) => (.ok n, some b)
    | (.err e, b) => (.error e, some b)
  | _, _ => (.error .EFAULT, buf)

/-! ## Link creation -/

/-- The host after `IPersistFile::Save` stored the shell link `sl` at `link`:
the path now names an ordinary file (archive attribute) that can be read,
starts with the shortcut magic and loads back as `sl`; every other path is as
before. The persistence codec is taken as lossless on the link text. -/
def Host.withShortcut (host : Host) (link : CStr) (sl : ShellLink) : Host :=
  { host with
    GetFileAttributes := fun n =>
      if n = link then .attrs FILE_ATTRIBUTE_ARCHIVE else host.GetFileAttributes n
    CreateFile_read := fun n =>
      if n = link then
        some { content := SHORTCUT_COOKIE ++ host.ShellLink_Image sl,
               headerReadOk := true, bodyReadOk := true }
      else host.CreateFile_read n
    ShellLink_Load := fun n => if n = link then some sl else host.ShellLink_Load n }

/-- `CreateShortcut(link, name, working, desc)`: TRUE or FALSE, and the host
after the call. -/
def CreateShortcut (host : Host) (link name working desc : CStr) : Bool × Host :=
  if host.ShellLink_Save link then
    (true, host.withShortcut link
      { hresPath := 0, path := name, hresDesc := 0, desc := desc, working := working })
  else (false, host)

/-- `w32_symlink(name1, name2)`: 0, or -1 with its errno, and the host after
the call. -/
def w32_symlink (cfg : Config) (host : Host) (name1 name2 : Option CStr) :
    Except Errno Unit × Host :=
  match name1, name2 with
  | some n1, some n2 =>
    if n1.length > cfg.MAX_PATH ∨ n2.length > cfg.MAX_PATH then (.error .ENAMETOOLONG, host)
    else
      match host.GetFileAttributes n2 with
      | .attrs _ => (.error .EEXIST, host)
      | .failed _ =>
        match CreateShortcut host n2 n1 [] n1 with
        | (false, h) => (.error Errno.EIO, h)
        | (true, h) => (.ok (), h)
  | _, _ => (.error .ENAMETOOLONG, host)

/-! ## File status -/

/-- The type mask and type tags of `<sys/stat.h>` and the owner permission
bits (`S_IREAD`, `S_IWRITE`, `S_IEXEC`). -/
def S_IFMT : Nat := 0xF000

def S_IFIFO : Nat := 0x1000

def S_IFCHR : Nat := 0x2000

def S_IFDIR : Nat := 0x4000

def S_IFREG : Nat := 0x8000

/-- Modelled from the spec: the symlink type tag, the macro `S_IFLNK` that
the repository's own `unistd.h` (not in the source file) adds to the host's
`<sys/stat.h>`; it has its customary value, octal 0120000. -/
def S_IFLNK : Nat := 0xA000

def S_IREAD : Nat := 0x100

def S_IWRITE : Nat := 0x80

def S_IEXEC : Nat := 0x40

/-- Modelled from the spec: the read permission bits `S_IRUSR`, `S_IRGRP` and
`S_IROTH` ("owner-read permission" and its group and other counterparts) of
the repository's own headers (not in the source file), at their customary
values, octal 0400, 0040 and 0004. -/
def S_IRUSR : Nat := 0o400

def S_IRGRP : Nat := 0o040

def S_IROTH : Nat := 0o004

/-- The conversion of a `DWORD` to `off_t`, the type of `st_size`: the
32-bit signed `_off_t` of the host C library (`<sys/types.h>`). The low 32
bits are kept and read in two's complement, so a word of `2^31` or more
becomes negative. -/
def off_t.ofDWORD (v : Nat) : Int :=
  if v % 2 ^ 32 < 2 ^ 31 then ((v % 2 ^ 32 : Nat) : Int)
  else ((v % 2 ^ 32 : Nat) : Int) - 2 ^ 32

/-- The conversion `(dev_t)` of an `int`, the type of `st_dev` and `st_rdev`:
the 32-bit unsigned `_dev_t` of the host C library (`<sys/types.h>`). The
value is taken modulo `2^32`, so -1 becomes 4294967295. -/
def dev_t.ofInt (v : Int) : Int := v % 2 ^ 32

/-- The members of `struct stat` the file assigns. `st_size` holds an
`off_t` (32-bit signed) and `st_dev`, `st_rdev` a `dev_t` (32-bit unsigned):
the stores of a value of another type go through `off_t.ofDWORD` and
`dev_t.ofInt`. -/
structure stat where
  st_mode : Nat
  st_nlink : Int
  st_uid : Int
  st_gid : Int
  st_size : Int
  st_atime : Int
  st_mtime : Int
  st_ctime : Int
  st_dev : Int
  st_rdev : Int
  st_ino : Nat
  deriving DecidableEq, Repr

/-- The record after `memset(sb, 0, sizeof(struct stat))`. -/
def stat.zero : stat :=
  { st_mode := 0, st_nlink := 0, st_uid := 0, st_gid := 0, st_size := 0, st_atime := 0,
    st_mtime := 0, st_ctime := 0, st_dev := 0, st_rdev := 0, st_ino := 0 }

/-- `ConvertTime(ft)`. -/
def ConvertTime (host : Host) (ft : FILETIME) : Int :=
  if ft.dwLowDateTime = 0 ∧ ft.dwHighDateTime = 0 then 0
  else
    match host.LocalTime ft with
    | none => -1
    | some t => t

/-- `ApplyTimes(sb, ftCreationTime, ftLastAccessTime, ftLastWriteTime)`. -/
def ApplyTimes (host : Host) (sb : stat) (ftCreationTime ftLastAccessTime
    ftLastWriteTime : FILETIME) : stat :=
  let m := ConvertTime host ftLastWriteTime
  let a := ConvertTime host ftLastAccessTime
  let c := ConvertTime host ftCreationTime
  { sb with st_mtime := m, st_atime := if a = 0 then m else a,
            st_ctime := if c = 0 then m else c }

/-- `ApplySize(sb, nFileSizeLow, nFileSizeHigh)`. -/
def ApplySize (sb : stat) (nFileSizeLow _nFileSizeHigh : Nat) : stat :=
  { sb with st_size := off_t.ofDWORD nFileSizeLow }

/-- The table `exec_assume`. -/
def exec_assume : List CStr := [".exe", ".com", ".cmd", ".bat"].map String.toList

/-- The table `exec_exclude`. -/
def exec_exclude : List CStr :=
  [".o", ".obj", ".h", ".hpp", ".inc", ".c", ".cc", ".cpp", ".cs", ".a", ".lib", ".dll",
   ".zip", ".gz", ".tar", ".tgz", ".bz2", ".rar", ".doc", ".txt", ".hlp", ".chm",
   ".dat"].map String.toList

/-- `IsExec(name)`. -/
def IsExec (host : Host) (name : CStr) : Bool :=
  match strrchr name '.' with
  | some dot =>
    if exec_assume.any (fun e => WIN32_STRICMP_eq dot e) then true
    else if exec_exclude.any (fun e => WIN32_STRICMP_eq dot e) then false
    else host.GetDriveType name == DRIVE_FIXED && host.GetBinaryType name
  | none => host.GetDriveType name == DRIVE_FIXED && host.GetBinaryType name

/-- The name `ApplyAttributes` inspects for the root test: `name` without a
leading drive designator. -/
def ApplyAttributes.stripDrive (name : CStr) : CStr :=
  if charAt name 0 != NUL && charAt name 1 == ':' then name.drop 2 else name

/-- The root test of `ApplyAttributes`: nothing, or one separator, is left
of the name. -/
def ApplyAttributes.isRoot (p : CStr) : Bool :=
  charAt p 0 == NUL || (ISSLASH (charAt p 0) && charAt p 1 == NUL)

/-- The file-type tag (with the search bit of directories) that
`ApplyAttributes` selects. -/
def ApplyAttributes.typeBits (cfg : Config) (host : Host) (dwAttributes : Nat)
    (name : Option CStr) : Nat :=
  if (match name with
      | some n => ApplyAttributes.isRoot (ApplyAttributes.stripDrive n)
      | none => false) then
    S_IFDIR ||| S_IEXEC
  else if hasFlag dwAttributes FILE_ATTRIBUTE_DIRECTORY then
    S_IFDIR ||| S_IEXEC
  else if hasFlag dwAttributes FILE_ATTRIBUTE_REPARSE_POINT ||
      (match name with
       | some n => (Readlink host n .null cfg.WIN32_PATH_MAX).1.isPos
       | none => false) then
    S_IFLNK
  else S_IFREG

/-- The `st_mode` value `ApplyAttributes` computes. -/
def ApplyAttributes.mode (cfg : Config) (host : Host) (dwAttributes : Nat)
    (name : Option CStr) : Nat :=
  let m0 := ApplyAttributes.typeBits cfg host dwAttributes name
  let m1 := m0 ||| (if hasFlag dwAttributes FILE_ATTRIBUTE_READONLY then S_IREAD
                    else S_IREAD ||| S_IWRITE)
  let m2 := if (match name with
                | some n => IsExec host n
                | none => false) then m1 ||| S_IEXEC else m1
  if hasFlag dwAttributes FILE_ATTRIBUTE_SYSTEM then m2
  else
    let m3 := m2 ||| ((m2 &&& 0o700) >>> 3)
    if hasFlag dwAttributes FILE_ATTRIBUTE_HIDDEN then m3
    else m3 ||| ((m3 &&& 0o700) >>> 6)

/-- `ApplyAttributes(sb, dwAttributes, name)`. -/
def ApplyAttributes (cfg : Config) (host : Host) (sb : stat) (dwAttributes : Nat)
    (name : Option CStr) : stat :=
  { sb with
    st_mode := ApplyAttributes.mode cfg host dwAttributes name
    st_nlink := 1
    st_uid := if hasFlag dwAttributes FILE_ATTRIBUTE_SYSTEM then 0 else host.w32_getuid
    st_gid := if hasFlag dwAttributes FILE_ATTRIBUTE_SYSTEM then 0 else host.w32_getgid }

/-- C `toupper` on an ASCII character code. -/
def toupper (c : Char) : Int :=
  if 'a'.toNat ≤ c.toNat ∧ c.toNat ≤ 'z'.toNat then (c.toNat : Int) - 32 else (c.toNat : Int)

/-- The drive number `Stat` derives from the absolute name (A is 1; 0 when
the name starts with a separator). -/
def Stat.drive (fullname : CStr) : Int :=
  if ISSLASH (charAt fullname 0) then 0
  else toupper (charAt fullname 0) - ('A'.toNat : Int) + 1

/-- The pattern `"x:\"` of an absolute name. -/
def Stat.isDriveRoot (fullname : CStr) : Bool :=
  charAt fullname 0 != NUL && charAt fullname 1 == ':' && ISSLASH (charAt fullname 2) &&
    charAt fullname 3 == NUL

/-- The UNC root test of `Stat` on a name that starts with two separators:
`slash` is the first separator after them, `nextslash` the one after it. -/
def Stat.isUNCRoot (fullname : CStr) : Bool :=
  let slash := w32_strslash (some (fullname.drop 2))
  let nextslash := w32_strslash (slash.map (fun s => s.drop 1))
  match slash, nextslash with
  | none, _ => false
  | some _, none => true
  | some _, some ns => charAt ns 1 == NUL

/-- The enumeration lookup of `Stat`: the `root` marker (0, 1 for a drive
root, 2 for a UNC root), the result so far and the content of `fb`. -/
def Stat.lookup (host : Host) (fullname : CStr) : Nat × Ret × WIN32_FIND_DATA :=
  match host.FindFirstFile fullname with
  | some fb => (0, .val 0, fb)
  | none =>
    if Stat.isDriveRoot fullname && decide (host.GetDriveType fullname > 1) then
      (1, .val 0, host.fb_indeterminate)
    else if ISSLASH (charAt fullname 0) && ISSLASH (charAt fullname 1) then
      if Stat.isUNCRoot fullname then (2, .val 0, host.fb_indeterminate)
      else (0, .err .ENOENT, host.fb_indeterminate)
    else (0, .err .ENOENT, host.fb_indeterminate)

/-- The part of `Stat` under `if (0 == ret)`: the metadata open and the
assignment of the record. -/
def Stat.assign (cfg : Config) (host : Host) (fullname : CStr) (root : Nat)
    (fb : WIN32_FIND_DATA) (sb : stat) : Ret × stat :=
  let step : Ret × WIN32_FIND_DATA × stat :=
    match host.OpenMetadata fullname with
    | .info fi =>
      let sb1 := if fi.nNumberOfLinks > 0 then { sb with st_nlink := fi.nNumberOfLinks } else sb
      let fb1 := { fb with nFileSizeHigh := fi.nFileSizeHigh, nFileSizeLow := fi.nFileSizeLow,
                           ftCreationTime := fi.ftCreationTime,
                           ftLastAccessTime := fi.ftLastAccessTime,
                           ftLastWriteTime := fi.ftLastWriteTime }
      let ino := host.w32_ino_gen fi.nFileIndexLow fi.nFileIndexHigh
      (.val 0, fb1, { sb1 with st_ino := if ino = 0 then host.w32_ino_hash fullname else ino })
    | .infoFailed =>
      (.val 0, fb, if sb.st_ino = 0 then { sb with st_ino := host.w32_ino_hash fullname } else sb)
    | .openFailed =>
      if root ≠ 0 then (.err .ENOENT, fb, sb)
      else
        let ino := host.w32_ino_file fullname
        (.val 0, fb, { sb with st_ino := if ino = 0 then host.w32_ino_hash fullname else ino })
  let ret := step.1
  let fb2 := step.2.1
  let sb2 := step.2.2
  let fb3 := if root ≠ 0 then
      { fb2 with dwFileAttributes := fb2.dwFileAttributes ||| FILE_ATTRIBUTE_DIRECTORY }
    else fb2
  let sb3 := if root ≠ 0 then
      ApplyTimes host sb2 fb3.ftCreationTime fb3.ftLastAccessTime fb3.ftLastWriteTime
    else sb2
  let sb4 := ApplyAttributes cfg host sb3 fb3.dwFileAttributes (some fullname)
  let sb5 := ApplyTimes host sb4 fb3.ftCreationTime fb3.ftLastAccessTime fb3.ftLastWriteTime
  let sb6 := ApplySize sb5 fb3.nFileSizeLow fb3.nFileSizeHigh
  (ret, { sb6 with st_rdev := dev_t.ofInt (Stat.drive fullname - 1),
                   st_dev := dev_t.ofInt (Stat.drive fullname - 1) })

/-- `Stat(name, sb)`: the result and the record after the call; `none` is a
null pointer. -/
def Stat (cfg : Config) (host : Host) (name : Option CStr) (sb : Option stat) :
    Ret × Option stat :=
  match name, sb with
  | some name, some sb =>
    if charAt name 0 == NUL || (charAt name 1 == ':' && charAt name 2 == NUL) then
      (.err .ENOENT, some sb)
    else if name.contains '?' || name.contains '*' then (.err .ENOENT, some sb)
    else
      match host.GetFullPathName name with
      | none => (.err .ENOENT, some sb)
      | some fullname =>
        if fullname.length ≥ cfg.WIN32_PATH_MAX then (.err .ENAMETOOLONG, some sb)
        else
          match Stat.lookup host fullname with
          | (root, .val 0, fb) =>
            let r := Stat.assign cfg host fullname root fb sb
            (r.1, some r.2)
          | (_, ret, _) => (ret, some sb)
  | _, _ => (.err .EFAULT, sb)

/-- The return convention of the public calls: a negative result is -1 with
`errno` set, any other result is 0. -/
def Ret.toExcept : Ret → Except Errno Unit
  | .err e => .error e
  | .val _ => .ok ()

/-- `w32_stat(path, sb)`: the return value and the record after the call. -/
def w32_stat (cfg : Config) (host : Host) (path : Option CStr) (sb : Option stat) :
    Except Errno Unit × Option stat :=
  match path, sb with
  | some p, some _ =>
    match Readlink host p .default cfg.WIN32_PATH_MAX with
    | (.err e, _) => (.error e, some stat.zero)
    | (.val 0, _) =>
      let r := Stat cfg host (some p) (some stat.zero)
      (r.1.toExcept, r.2)
    | (.val _, symbuf) =>
      let r := Stat cfg host (some (cstr symbuf)) (some stat.zero)
      (r.1.toExcept, r.2)
  | _, _ => (.error .EFAULT, sb)

/-- `w32_lstat(path, sb)`: the return value and the record after the call. -/
def w32_lstat (cfg : Config) (host : Host) (path : Option CStr) (sb : Option stat) :
    Except Errno Unit × Option stat :=
  match path, sb with
  | some p, some s =>
    let r := Stat cfg host (some p) (some s)
    (r.1.toExcept, r.2)
  | _, _ => (.error .EFAULT, sb)

/-- The record `w32_fstat` fills for a character device or a pipe. -/
def w32_fstat.special (sb : stat) (tag : Nat) : stat :=
  { sb with st_mode := (sb.st_mode ||| (S_IRUSR ||| S_IRGRP ||| S_IROTH)) ||| tag,
            st_dev := 1, st_rdev := 1 }

/-- `w32_fstat(fd, sb)`: the return value and the record after the call. -/
def w32_fstat (cfg : Config) (host : Host) (fd : Int) (sb : Option stat) :
    Except Errno Unit × Option stat :=
  match sb with
  | none => (.error .EFAULT, none)
  | some _ =>
    if fd < 0 then (.error .EBADF, some stat.zero)
    else
      match host.get_osfhandle fd with
      | none =>
        if fd > cfg.WIN32_FILDES_MAX ∧ host.GetFileType fd.toNat = FILE_TYPE_PIPE then
          (.ok (), some (w32_fstat.special stat.zero S_IFIFO))
        else (.error .EBADF, some stat.zero)
      | some handle =>
        let ftype := host.GetFileType handle
        if ftype = FILE_TYPE_DISK then
          match host.GetFileInformationByHandle handle with
          | some fi =>
            let sb1 := ApplyAttributes cfg host stat.zero fi.dwFileAttributes
              (host.GetFinalPathNameByHandle handle)
            let sb2 := ApplyTimes host sb1 fi.ftCreationTime fi.ftLastAccessTime
              fi.ftLastWriteTime
            let sb3 := ApplySize sb2 fi.nFileSizeLow fi.nFileSizeHigh
            (.ok (), some (if fi.nNumberOfLinks > 0 then
              { sb3 with st_nlink := fi.nNumberOfLinks } else sb3))
          | none => (.ok (), some stat.zero)
        else if ftype = FILE_TYPE_PIPE then (.ok (), some (w32_fstat.special stat.zero S_IFIFO))
        else if ftype = FILE_TYPE_CHAR then (.ok (), some (w32_fstat.special stat.zero S_IFCHR))
        else (.error .EBADF, some stat.zero)

/-! ## Open -/

/-- C `oflag & ~mask` on a non-negative flag word. -/
def clearFlags (oflag mask : Nat) : Nat := oflag ^^^ (oflag &&& mask)

/-- How `w32_open` ends: it returns -1 with an errno without calling `_open`,
or it returns what its single call `_open(path, oflag, mode)` returns. -/
inductive OpenCall where
  | refused (e : Errno)
  | trueOpen (path : CStr) (oflag : Nat) (mode : Int)
  deriving DecidableEq, Repr

/-- The body of `w32_open(path, oflag, mode)` up to its last statement. `arg`
is the variadic argument, read only when `O_CREAT` is set. -/
def w32_open_call (cfg : Config) (host : Host) (path : CStr) (oflag : Nat) (arg : Int) :
    OpenCall :=
  let mode : Int := if oflag &&& cfg.O_CREAT ≠ 0 then arg else 0
  match Readlink host path .default cfg.WIN32_PATH_MAX with
  | (.err e, _) =>
    if oflag &&& cfg.O_CREAT ≠ 0 ∧ (e = .ENOTDIR ∨ e = .ENOENT) then .trueOpen path oflag mode
    else .refused e
  | (.val 0, _) => .trueOpen path oflag mode
  | (.val _, symbuf) =>
    let oflag1 :=
      if oflag &&& (cfg.O_CREAT ||| cfg.O_EXCL) = (cfg.O_CREAT ||| cfg.O_EXCL) then
        clearFlags oflag (cfg.O_CREAT ||| cfg.O_EXCL)
      else oflag
    if cfg.O_NOFOLLOW ≠ 0 ∧ oflag &&& cfg.O_NOFOLLOW ≠ 0 then .refused .ELOOP
    else .trueOpen (cstr symbuf) oflag1 mode

/-- `w32_open(path, oflag, mode)`: a descriptor, or -1 with its errno. -/
def w32_open (cfg : Config) (host : Host) (path : CStr) (oflag : Nat) (arg : Int) :
    Except Errno Nat :=
  match w32_open_call cfg host path oflag arg with
  | .refused e => .error e
  | .trueOpen p f m => host.true_open p f m

/-! ## Concrete configurations and hosts -/

deriving instance DecidableEq for Except

/-- A configuration: path ceiling 1024, `MAX_PATH` 260, the flag bits of the
host C library, no `O_NOFOLLOW`, descriptors reserved up to 2048. -/
def cfg0 : Config :=
  { WIN32_PATH_MAX := 1024, MAX_PATH := 260, O_CREAT := 0x100, O_EXCL := 0x400,
    O_NOFOLLOW := 0, WIN32_FILDES_MAX := 2048 }

/-- The configuration `cfg0` with an `O_NOFOLLOW` bit. -/
def cfgNoFollow : Config := { cfg0 with O_NOFOLLOW := 0x20000 }

/-- The zero file time. -/
def FILETIME.zero : FILETIME := { dwLowDateTime := 0, dwHighDateTime := 0 }

/-- An enumeration record with the attribute word `attrs`, size 0 and unknown
times. -/
def findData (attrs : Nat) : WIN32_FIND_DATA :=
  { dwFileAttributes := attrs, ftCreationTime := FILETIME.zero,
    ftLastAccessTime := FILETIME.zero, ftLastWriteTime := FILETIME.zero,
    nFileSizeHigh := 0, nFileSizeLow := 0 }

/-- A host on which no path names a file: every lookup fails with "file not
found", names are absolute as given up to the separator style (the absolute
form has backslashes), and a shell link can be saved. -/
def emptyHost : Host :=
  { GetFileAttributes := fun _ => .failed ERROR_FILE_NOT_FOUND
    CreateFile_read := fun _ => none
    ShellLink_Load := fun _ => none
    GetReparsePoint := fun _ => .openFailed
    GetFullPathName := fun n => some (n.map (fun c => if c == '/' then '\\' else c))
    FindFirstFile := fun _ => none
    GetDriveType := fun _ => 1
    OpenMetadata := fun _ => .openFailed
    GetBinaryType := fun _ => false
    LocalTime := fun _ => none
    fb_indeterminate := findData 0
    w32_getuid := 0
    w32_getgid := 0
    w32_ino_gen := fun _ _ => 0
    w32_ino_hash := fun _ => 1
    w32_ino_file := fun _ => 0
    true_open := fun _ _ _ => .error .ENOENT
    ShellLink_Save := fun _ => true
    ShellLink_Image := fun _ => []
    get_osfhandle := fun _ => none
    GetFileType := fun _ => FILE_TYPE_UNKNOWN
    GetFileInformationByHandle := fun _ => none
    GetFinalPathNameByHandle := fun _ => none }

/-- A shell link whose path and description are both `target`. -/
def shellLinkTo (target : CStr) : ShellLink :=
  { hresPath := 0, path := target, hresDesc := 0, desc := target, working := [] }

/-- The host `host` with an ordinary file at `name`: attribute word `attrs`,
content `content`, visible to the enumeration and to the metadata open. -/
def Host.withFile (host : Host) (name : CStr) (attrs : Nat) (content : List Char) : Host :=
  { host with
    GetFileAttributes := fun n => if n = name then .attrs attrs else host.GetFileAttributes n
    CreateFile_read := fun n =>
      if n = name then some { content := content, headerReadOk := true, bodyReadOk := true }
      else host.CreateFile_read n
    FindFirstFile := fun n => if n = name then some (findData attrs) else host.FindFirstFile n
    OpenMetadata := fun n => if n = name then .infoFailed else host.OpenMetadata n }

/-- The scenario of the suffix probe: `C:\data\report` does not exist and
`C:\data\report.lnk` is a shortcut file to `C:\data\report.txt`. -/
def reportHost : Host :=
  emptyHost.withShortcut "C:\\data\\report.lnk".toList (shellLinkTo "C:\\data\\report.txt".toList)

/-- The shortcut `a.lnk` leads to the existing file `b`, which `_open` opens
as descriptor 3 unless creation is requested exclusively. -/
def linkToExistingHost : Host :=
  { (emptyHost.withFile "b".toList FILE_ATTRIBUTE_ARCHIVE "data".toList).withShortcut
      "a.lnk".toList (shellLinkTo "b".toList) with
    true_open := fun p f _ =>
      if p = "b".toList then
        (if f &&& 0x500 = 0x500 then .error .EEXIST else .ok 3)
      else .error .ENOENT }

/-- A plain file `f` that is offline: no directory, no reparse point, no
shortcut magic and no plain-text marker. -/
def offlineHost : Host :=
  emptyHost.withFile "f".toList (FILE_ATTRIBUTE_OFFLINE ||| FILE_ATTRIBUTE_ARCHIVE) "plain".toList

/-- A native symbolic link `C:\dlink` to the directory `C:\data`, as the host
reports one: a reparse point with the directory attribute and the symlink
tag. -/
def dirSymlinkHost : Host :=
  { emptyHost.withFile "C:\\dlink".toList
      (FILE_ATTRIBUTE_DIRECTORY ||| FILE_ATTRIBUTE_REPARSE_POINT) [] with
    GetReparsePoint := fun n =>
      if n = "C:\\dlink".toList then
        .data { ReparseTag := IO_REPARSE_TAG_SYMLINK, SubstituteNameLength := 14,
                name := "C:\\data".toList }
      else .openFailed }

/-- A chain of two shortcuts: `C:\a.lnk` leads to `C:\b.lnk`, which leads to
`C:\c`. -/
def chainHost : Host :=
  { ((emptyHost.withFile "C:\\b.lnk".toList FILE_ATTRIBUTE_ARCHIVE []).withShortcut
      "C:\\b.lnk".toList (shellLinkTo "C:\\c".toList)).withShortcut
      "C:\\a.lnk".toList (shellLinkTo "C:\\b.lnk".toList) with
    FindFirstFile := fun n =>
      if n = "C:\\b.lnk".toList ∨ n = "C:\\a.lnk".toList then
        some (findData FILE_ATTRIBUTE_ARCHIVE)
      else none }

/-- A text file named `notes.lnk`: the extension of a shortcut, no shortcut
content. -/
def plainLnkHost : Host :=
  emptyHost.withFile "notes.lnk".toList FILE_ATTRIBUTE_ARCHIVE "plain text".toList

/-! ## Host handles -/

/-- A host handle event of a call: a `CreateFile` that succeeded, or a
`CloseHandle`. -/
inductive HandleEvent where
  | opened
  | closed
  deriving DecidableEq, Repr

/-- The number of handles a sequence of events leaves open. -/
def HandleEvent.balance (t : List HandleEvent) : Int :=
  (t.count .opened : Int) - (t.count .closed : Int)

/-- The handle events of `ReadReparse(name, buf, maxlen)` in program order:
the `CreateFile` at its start, and the `CloseHandle` before its last
`return -1`, which the two `return 0` statements do not reach. -/
def ReadReparse.handleEvents (host : Host) (name : CStr) : List HandleEvent :=
  match host.GetReparsePoint name with
  | .openFailed => []
  | .ioctlFailed => [.opened, .closed]
  | .data d =>
    if d.ReparseTag = IO_REPARSE_TAG_SYMLINK then
      if d.SubstituteNameLength ≥ 4 then [.opened] else [.opened, .closed]
    else if d.ReparseTag = IO_REPARSE_TAG_MOUNT_POINT then
      if d.SubstituteNameLength > 0 then [.opened] else [.opened, .closed]
    else [.opened, .closed]

/-! ## More concrete hosts -/

def ERROR_INVALID_NAME : Nat := 123

/-- The precise metadata of a file with two hard links. -/
def hardLinkInfo : BY_HANDLE_FILE_INFORMATION :=
  { dwFileAttributes := FILE_ATTRIBUTE_ARCHIVE, ftCreationTime := FILETIME.zero,
    ftLastAccessTime := FILETIME.zero, ftLastWriteTime := FILETIME.zero,
    nFileSizeHigh := 0, nFileSizeLow := 0, nNumberOfLinks := 2, nFileIndexHigh := 0,
    nFileIndexLow := 9 }

/-- The file `C:\f` has two hard links; descriptor 3 is open on it. -/
def hardLinkHost : Host :=
  { emptyHost.withFile "C:\\f".toList FILE_ATTRIBUTE_ARCHIVE [] with
    OpenMetadata := fun n => if n = "C:\\f".toList then .info hardLinkInfo else .openFailed
    w32_ino_gen := fun lo hi => lo + hi
    get_osfhandle := fun fd => if fd = 3 then some 100 else none
    GetFileType := fun h => if h = 100 then FILE_TYPE_DISK else FILE_TYPE_UNKNOWN
    GetFileInformationByHandle := fun h => if h = 100 then some hardLinkInfo else none
    GetFinalPathNameByHandle := fun h => if h = 100 then some "C:\\f".toList else none }

/-- Descriptor 5 is a pipe, 6 a character device, 7 a remote handle and 8 a
handle of unknown type. -/
def pipeHost : Host :=
  { emptyHost with
    get_osfhandle := fun fd =>
      if fd = 5 then some 100 else if fd = 6 then some 101 else if fd = 7 then some 102
      else if fd = 8 then some 103 else none
    GetFileType := fun h =>
      if h = 100 then FILE_TYPE_PIPE else if h = 101 then FILE_TYPE_CHAR
      else if h = 102 then FILE_TYPE_REMOTE else FILE_TYPE_UNKNOWN }

/-- Every attribute lookup fails with "path not found". -/
def pathNotFoundHost : Host :=
  { emptyHost with GetFileAttributes := fun _ => .failed ERROR_PATH_NOT_FOUND }

/-- Every attribute lookup fails with "invalid name", the answer of the host
to a name with a wildcard marker. -/
def invalidNameHost : Host :=
  { emptyHost with GetFileAttributes := fun _ => .failed ERROR_INVALID_NAME }

/-- The enumeration finds nothing, every metadata open succeeds (without
precise metadata) and every drive is a fixed volume. -/
def rootsHost : Host :=
  { emptyHost with
    OpenMetadata := fun _ => .infoFailed
    GetDriveType := fun _ => DRIVE_FIXED }

/-- The files `C:\old` and `m` carry the system attribute and hold the
plain-text marker followed by the bytes `abc` and `abcd`, without a NUL. -/
def markerHost : Host :=
  (emptyHost.withFile "C:\\old".toList FILE_ATTRIBUTE_SYSTEM "!<symlink>abc".toList).withFile
    "m".toList FILE_ATTRIBUTE_SYSTEM "!<symlink>abcd".toList

/-- A native symbolic link `C:\flink` to the file `C:\data\report.txt`: a
reparse point with the symlink tag. -/
def fileSymlinkHost : Host :=
  { emptyHost.withFile "C:\\flink".toList
      (FILE_ATTRIBUTE_REPARSE_POINT ||| FILE_ATTRIBUTE_ARCHIVE) [] with
    GetReparsePoint := fun n =>
      if n = "C:\\flink".toList then
        .data { ReparseTag := IO_REPARSE_TAG_SYMLINK, SubstituteNameLength := 36,
                name := "C:\\data\\report.txt".toList }
      else .openFailed }

/-- The file `x.lnk` exists and cannot be opened for reading; the attribute
lookup of every other name fails with the code `rc`. -/
def lockedLnkHost (rc : Nat) : Host :=
  { emptyHost with
    GetFileAttributes := fun n =>
      if n = "x.lnk".toList then .attrs FILE_ATTRIBUTE_ARCHIVE else .failed rc }

/-- The name `C:\x` does not exist; `C:\x.lnk` is a native symbolic link (a
reparse point with the symlink tag) to `C:\t`. -/
def reparseLnkHost : Host :=
  { emptyHost with
    GetFileAttributes := fun n =>
      if n = "C:\\x.lnk".toList then
        .attrs (FILE_ATTRIBUTE_REPARSE_POINT ||| FILE_ATTRIBUTE_ARCHIVE)
      else .failed ERROR_FILE_NOT_FOUND
    GetReparsePoint := fun n =>
      if n = "C:\\x.lnk".toList then
        .data { ReparseTag := IO_REPARSE_TAG_SYMLINK, SubstituteNameLength := 8,
                name := "C:\\t".toList }
      else .openFailed }

/-- Descriptor 4 is open on a disk file whose precise metadata query fails. -/
def diskNoInfoHost : Host :=
  { emptyHost with
    get_osfhandle := fun fd => if fd = 4 then some 100 else none
    GetFileType := fun h => if h = 100 then FILE_TYPE_DISK else FILE_TYPE_UNKNOWN }

/-- A directory named `d.lnk` that is also a reparse point; nothing is named
`d`, and nothing can be opened, read or decoded. -/
def dirLnkHost : Host :=
  { emptyHost with
    GetFileAttributes := fun n =>
      if n = "d.lnk".toList then
        .attrs (FILE_ATTRIBUTE_DIRECTORY ||| FILE_ATTRIBUTE_REPARSE_POINT)
      else .failed ERROR_FILE_NOT_FOUND }

/-- The host `markerHost` with a file `abc` that `_open` opens as descriptor
3; nothing else can be opened. -/
def staleOpenHost : Host :=
  { markerHost with
    true_open := fun p _ _ => if p = "abc".toList then .ok 3 else .error .ENOENT }

set_option maxRecDepth 1000000

/-- The string held by a buffer that starts with a NUL-free text and a NUL. -/
theorem cstr_append_NUL (s r : List Char) (h : NUL ∉ s) : cstr (s ++ NUL :: r) = s := by
  induction s with
  | nil => simp [cstr]
  | cons a t ih =>
    have ha : (a != NUL) = true := by
      simp only [bne_iff_ne, ne_eq]
      exact fun e => h (by simp [e])
    have ht : NUL ∉ t := fun e => h (by simp [e])
    have := ih ht
    simp only [cstr] at this ⊢
    rw [List.cons_append, List.takeWhile_cons, ha]
    simp [this]

/-- C `strlen` of a NUL-free text followed by a NUL. -/
theorem strlen_append_NUL (s r : List Char) (h : NUL ∉ s) : strlen (s ++ NUL :: r) = s.length := by
  rw [strlen, cstr_append_NUL s r h]

/-- The primed buffer of a path that fits: the path, then NUL cells. -/
theorem primeBuffer_eq (path : CStr) (maxlen : Nat) (h : path.length < maxlen) :
    primeBuffer path maxlen = path ++ List.replicate (maxlen - path.length) NUL := by
  unfold primeBuffer
  have h1 : (path ++ List.replicate maxlen NUL).take maxlen
      = path ++ List.replicate (maxlen - path.length) NUL := by
    rw [List.take_append_eq_append_take, List.take_of_length_le (by omega)]
    simp [List.take_replicate]
  rw [h1]
  apply List.ext_getElem
  · simp
  · intro i h2 h3
    simp only [List.getElem_set]
    split
    · next heq =>
      subst heq
      rw [List.getElem_append_right (by omega)]
      simp
    · rfl

/-- The length `Readlink` records for a path that fits. -/
theorem strlen_primed (path : CStr) (maxlen : Nat) (hn : NUL ∉ path)
    (h : path.length < maxlen) : strlen (primeBuffer path maxlen) = path.length := by
  rw [primeBuffer_eq path maxlen h]
  have : maxlen - path.length = (maxlen - path.length - 1) + 1 := by omega
  rw [this, List.replicate_succ, strlen, cstr_append_NUL _ _ hn]

/-- A store right after a prefix, when the stored cells fit. -/
theorem poke_append (p r src : List Char) (hfit : src.length ≤ r.length) :
    poke (p ++ r) p.length src = p ++ src ++ r.drop src.length := by
  unfold poke
  simp [List.take_append_eq_append_take, List.drop_append_eq_append_drop,
    List.take_of_length_le hfit]

/-- C `strcpy` of a suffix right after a prefix. -/
theorem strcpyAt_append (path suffix r : List Char) (h : suffix.length < r.length) :
    strcpyAt (path ++ r) path.length suffix
      = (path ++ suffix) ++ NUL :: r.drop (suffix.length + 1) := by
  unfold strcpyAt
  rw [poke_append _ _ _ (by simp; omega)]
  simp

/-- A bounded copy of a text shorter than the capacity. -/
theorem boundedCopy_eq (buf : List Char) (maxlen : Nat) (s : CStr)
    (hs : s.length < maxlen) (hb : buf.length = maxlen) :
    boundedCopy buf maxlen s = s ++ NUL :: buf.drop (s.length + 1) := by
  unfold boundedCopy
  have := poke_append [] buf (s.take (maxlen - 1) ++ [NUL]) (by simp; omega)
  simp only [List.nil_append, List.length_nil] at this
  rw [this, List.take_of_length_le (by omega)]
  simp

/-- The separator map of `w32_dos2unix` on a terminated text. -/
theorem dos2unix_append_NUL (s r : List Char) (h : NUL ∉ s) :
    w32_dos2unix (s ++ NUL :: r)
      = s.map (fun c => if c == '\\' then '/' else c) ++ NUL :: r := by
  unfold w32_dos2unix
  rw [strlen_append_NUL s r h, cstr_append_NUL s r h]
  simp

/-- The separator map introduces no NUL. -/
theorem NUL_not_mem_map_slash (s : List Char) (h : NUL ∉ s) :
    NUL ∉ s.map (fun c => if c == '\\' then '/' else c) := by
  intro hm
  rw [List.mem_map] at hm
  obtain ⟨c, hc, he⟩ := hm
  by_cases hb : (c == '\\') = true
  · rw [if_pos hb] at he
    exact absurd he (by decide)
  · rw [if_neg hb] at he
    exact h (he ▸ hc)

/-- One turn of the suffix loop whose attribute lookup fails. -/
theorem Readlink_loop_failed (host : Host) (path suffix r : List Char) (maxlen : Nat)
    (rest : List CStr) (r0 : Ret) (rc : Nat)
    (hn : NUL ∉ path ++ suffix) (hlen : path.length + suffix.length < maxlen)
    (hr : r.length = maxlen - path.length)
    (ha : host.GetFileAttributes (path ++ suffix) = .failed rc) :
    Readlink.loop host path maxlen path.length (suffix :: rest) r0 (path ++ r)
      = Readlink.loop host path maxlen path.length rest (.err (Readlink.lastError rc))
          (path ++ (suffix ++ NUL :: r.drop (suffix.length + 1))) := by
  rw [Readlink.loop, if_neg (by omega)]
  simp only
  rw [strcpyAt_append _ _ _ (by omega), cstr_append_NUL _ _ hn, ha]
  simp

/-- One turn of the suffix loop whose attribute lookup succeeds. -/
theorem Readlink_loop_found (host : Host) (path suffix r : List Char) (maxlen : Nat)
    (rest : List CStr) (r0 : Ret) (a : Nat)
    (hn : NUL ∉ path ++ suffix) (hlen : path.length + suffix.length < maxlen)
    (hr : r.length = maxlen - path.length)
    (ha : host.GetFileAttributes (path ++ suffix) = .attrs a) :
    Readlink.loop host path maxlen path.length (suffix :: rest) r0 (path ++ r)
      = Readlink.classify host path maxlen a r0
          ((path ++ suffix) ++ NUL :: r.drop (suffix.length + 1)) := by
  rw [Readlink.loop, if_neg (by omega)]
  simp only
  rw [strcpyAt_append _ _ _ (by omega), cstr_append_NUL _ _ hn, ha]

/-- A shell link with a non-empty path decodes to that path. -/
theorem ReadShortcut_path (host : Host) (name : CStr) (buf : List Char) (maxlen : Nat)
    (sl : ShellLink) (hload : host.ShellLink_Load name = some sl)
    (hp : SUCCEEDED sl.hresPath = true) (hT : sl.path ≠ []) (hTn : NUL ∉ sl.path)
    (hTl : sl.path.length < maxlen) (hb : buf.length = maxlen) :
    ReadShortcut host name buf maxlen = (0, sl.path ++ NUL :: buf.drop (sl.path.length + 1)) := by
  unfold ReadShortcut
  rw [hload]
  simp only [hp, if_true, boundedCopy_eq buf maxlen sl.path hTl hb]
  obtain ⟨c, t, hc⟩ := List.exists_cons_of_ne_nil hT
  have hcn : c ≠ NUL := fun e => hTn (by rw [hc, e]; simp)
  simp [hc, hcn]

/-- The classification of a candidate that is a shortcut file. -/
theorem classify_shortcut (host : Host) (path name : CStr) (maxlen a : Nat) (r0 : Ret)
    (buf : List Char) (sl : ShellLink) (fh : ReadHandle)
    (hf1 : hasFlag a FILE_ATTRIBUTE_DIRECTORY = false)
    (hf2 : hasFlag a FILE_ATTRIBUTE_COMPRESSED = false)
    (hf3 : hasFlag a FILE_ATTRIBUTE_DEVICE = false)
    (hf4 : hasFlag a FILE_ATTRIBUTE_ENCRYPTED = false)
    (hf5 : hasFlag a FILE_ATTRIBUTE_REPARSE_POINT = false)
    (hf6 : hasFlag a FILE_ATTRIBUTE_OFFLINE = false)
    (hname : cstr buf = name) (hb : buf.length = maxlen)
    (hext : IsExtension name (some ".lnk".toList) = true)
    (hopen : host.CreateFile_read name = some fh) (hread : fh.headerReadOk = true)
    (hmagic : hasShortcutMagic (fh.content.take CYGWIN_COOKIE.length) = true)
    (hload : host.ShellLink_Load name = some sl)
    (hp : SUCCEEDED sl.hresPath = true) (hT : sl.path ≠ []) (hTn : NUL ∉ sl.path)
    (hTl : sl.path.length < maxlen) :
    Readlink.classify host path maxlen a r0 buf
      = (.val sl.path.length, sl.path ++ NUL :: buf.drop (sl.path.length + 1)) := by
  unfold Readlink.classify
  simp only [hf1, hf2, hf3, hf4, hf5, hf6, hname, hext, hopen, hread, hmagic,
    ReadShortcut_path host name buf maxlen sl hload hp hT hTn hTl hb,
    strlen_append_NUL _ _ hTn]
  simp

/-- A positive result is a successor. -/
theorem isPos_iff_succ (r : Ret) : r.isPos = true ↔ ∃ n, r = .val (n + 1) := by
  cases r with
  | err e => simp [Ret.isPos]
  | val n =>
    cases n with
    | zero => simp [Ret.isPos]
    | succ m => simp [Ret.isPos]

/-- The result of `Readlink` when its loop ends with a positive value. -/
theorem Readlink_of_loop_val (host : Host) (path : CStr) (maxlen n : Nat) (sfx : Suffixes)
    (T r : List Char) (hTn : NUL ∉ T) (hn : NUL ∉ path) (hlen : path.length < maxlen)
    (h : Readlink.loop host path maxlen path.length sfx.resolve
          (.err .ENOENT) (primeBuffer path maxlen) = (.val (n + 1), T ++ NUL :: r)) :
    Readlink host path sfx maxlen
      = (.val (n + 1), T.map (fun c => if c == '\\' then '/' else c) ++ NUL :: r) := by
  unfold Readlink
  simp only [strlen_primed path maxlen hn hlen, h, Ret.isPos]
  simp [dos2unix_append_NUL T r hTn]

/-- The result of `Readlink` when its loop ends with 0. -/
theorem Readlink_of_loop_zero (host : Host) (path : CStr) (maxlen : Nat) (sfx : Suffixes)
    (b : List Char) (hn : NUL ∉ path) (hlen : path.length < maxlen)
    (h : Readlink.loop host path maxlen path.length sfx.resolve
          (.err .ENOENT) (primeBuffer path maxlen) = (.val 0, b)) :
    Readlink host path sfx maxlen = (.val 0, b) := by
  unfold Readlink
  simp only [strlen_primed path maxlen hn hlen, h, Ret.isPos]
  simp

/-- A shortcut found at the second candidate, the literal one failing. -/
theorem Readlink_shortcut_suffix (host : Host) (path : CStr) (maxlen a rc : Nat)
    (sl : ShellLink) (fh : ReadHandle)
    (hn : NUL ∉ path) (hlen : path.length + 4 < maxlen)
    (hmiss : host.GetFileAttributes path = .failed rc)
    (ha : host.GetFileAttributes (path ++ ".lnk".toList) = .attrs a)
    (hf1 : hasFlag a FILE_ATTRIBUTE_DIRECTORY = false)
    (hf2 : hasFlag a FILE_ATTRIBUTE_COMPRESSED = false)
    (hf3 : hasFlag a FILE_ATTRIBUTE_DEVICE = false)
    (hf4 : hasFlag a FILE_ATTRIBUTE_ENCRYPTED = false)
    (hf5 : hasFlag a FILE_ATTRIBUTE_REPARSE_POINT = false)
    (hf6 : hasFlag a FILE_ATTRIBUTE_OFFLINE = false)
    (hext : IsExtension (path ++ ".lnk".toList) (some ".lnk".toList) = true)
    (hopen : host.CreateFile_read (path ++ ".lnk".toList) = some fh)
    (hread : fh.headerReadOk = true)
    (hmagic : hasShortcutMagic (fh.content.take CYGWIN_COOKIE.length) = true)
    (hload : host.ShellLink_Load (path ++ ".lnk".toList) = some sl)
    (hp : SUCCEEDED sl.hresPath = true) (hT : sl.path ≠ []) (hTn : NUL ∉ sl.path)
    (hTl : sl.path.length < maxlen) :
    ∃ b, Readlink host path .default maxlen = (.val sl.path.length, b) ∧
      cstr b = sl.path.map (fun c => if c == '\\' then '/' else c) := by
  obtain ⟨k, hk⟩ : ∃ k, sl.path.length = k + 1 :=
    ⟨sl.path.length - 1, by have := List.length_pos.2 hT; omega⟩
  have hn2 : NUL ∉ path ++ ".lnk".toList := by
    intro hm
    rcases List.mem_append.1 hm with h1 | h1
    · exact hn h1
    · exact absurd h1 (by decide)
  have hl4 : (".lnk".toList).length = 4 := by decide
  have h1 := Readlink_loop_failed host path [] (List.replicate (maxlen - path.length) NUL)
    maxlen [".lnk".toList] (.err .ENOENT) rc (by simpa using hn) (by simp; omega) (by simp)
    (by simpa using hmiss)
  have h2 := Readlink_loop_found host path ".lnk".toList
    ([] ++ NUL :: (List.replicate (maxlen - path.length) NUL).drop (([] : List Char).length + 1))
    maxlen [] (.err (Readlink.lastError rc)) a hn2 (by rw [hl4]; omega)
    (by simp; omega) ha
  rw [h2, ← primeBuffer_eq path maxlen (by omega)] at h1
  rw [classify_shortcut host path (path ++ ".lnk".toList) maxlen a _ _ sl fh hf1 hf2 hf3 hf4
    hf5 hf6 (cstr_append_NUL _ _ hn2) (by simp; omega) hext hopen hread hmagic
    hload hp hT hTn hTl] at h1
  rw [hk] at h1
  have hfin := Readlink_of_loop_val host path maxlen k .default _ _ hTn hn (by omega) h1
  rw [← hk] at hfin
  exact ⟨_, hfin, cstr_append_NUL _ _ (NUL_not_mem_map_slash _ hTn)⟩

/-- The return of `w32_readlink` on a positive resolver result. -/
theorem w32_readlink_of_Readlink (host : Host) (path : CStr) (buf0 b : List Char)
    (maxlen n : Nat) (hpos : 0 < n) (h : Readlink host path .default maxlen = (.val n, b)) :
    w32_readlink host (some path) (some buf0) maxlen = (.ok n, some b) := by
  unfold w32_readlink
  simp only [h]
  cases n with
  | zero => omega
  | succ m => rfl

/-- The end of `w32_open` on a path the resolver reports as a link. -/
theorem w32_open_call_link (cfg : Config) (host : Host) (path : CStr) (oflag : Nat) (arg : Int)
    (hlink : (Readlink host path .default cfg.WIN32_PATH_MAX).1.isPos = true) :
    w32_open_call cfg host path oflag arg
      = if cfg.O_NOFOLLOW ≠ 0 ∧ oflag &&& cfg.O_NOFOLLOW ≠ 0 then .refused .ELOOP
        else .trueOpen (cstr (Readlink host path .default cfg.WIN32_PATH_MAX).2)
          (if oflag &&& (cfg.O_CREAT ||| cfg.O_EXCL) = (cfg.O_CREAT ||| cfg.O_EXCL) then
            clearFlags oflag (cfg.O_CREAT ||| cfg.O_EXCL) else oflag)
          (if oflag &&& cfg.O_CREAT ≠ 0 then arg else 0) := by
  obtain ⟨n, hn⟩ := (isPos_iff_succ _).1 hlink
  unfold w32_open_call
  generalize Readlink host path .default cfg.WIN32_PATH_MAX = r at hn ⊢
  obtain ⟨r1, r2⟩ := r
  simp only at hn
  subst hn
  rfl

/-- The bits of `oflag & ~mask`. -/
theorem testBit_clearFlags (x m i : Nat) :
    (clearFlags x m).testBit i = (x.testBit i && !m.testBit i) := by
  unfold clearFlags
  rw [Nat.testBit_xor, Nat.testBit_and]
  cases x.testBit i <;> cases m.testBit i <;> rfl

/-- A word with all bits of two masks has all bits of the second. -/
theorem and_lor_eq_imp (x c e : Nat) (h : x &&& (c ||| e) = c ||| e) : x &&& e = e := by
  apply Nat.eq_of_testBit_eq
  intro i
  have := congrArg (fun t => t.testBit i) h
  simp only [Nat.testBit_and, Nat.testBit_or] at this ⊢
  revert this
  cases x.testBit i <;> cases c.testBit i <;> cases e.testBit i <;> simp

/-- The three values of the type bits. -/
theorem typeBits_cases (cfg : Config) (host : Host) (a : Nat) (name : Option CStr) :
    ApplyAttributes.typeBits cfg host a name = S_IFDIR ||| S_IEXEC ∨
    ApplyAttributes.typeBits cfg host a name = S_IFLNK ∨
    ApplyAttributes.typeBits cfg host a name = S_IFREG := by
  unfold ApplyAttributes.typeBits
  split_ifs <;> simp

/-- The permission bits leave the type tag of the mode alone. -/
theorem mode_tag (cfg : Config) (host : Host) (a : Nat) (name : Option CStr) :
    ApplyAttributes.mode cfg host a name &&& S_IFMT
      = ApplyAttributes.typeBits cfg host a name &&& S_IFMT := by
  unfold ApplyAttributes.mode
  rcases typeBits_cases cfg host a name with h | h | h <;> rw [h] <;> simp only [] <;>
    split_ifs <;> decide

/-- A flag that was or-ed in is set. -/
theorem hasFlag_lor_self (x f : Nat) (hf : f ≠ 0) : hasFlag (x ||| f) f = true := by
  unfold hasFlag
  have : (x ||| f) &&& f = f := by
    apply Nat.eq_of_testBit_eq
    intro i
    simp only [Nat.testBit_and, Nat.testBit_or]
    cases x.testBit i <;> cases f.testBit i <;> rfl
  rw [this]
  simpa using hf

/-- The mode `Stat` stores is the one `ApplyAttributes` computes from the enumeration record. -/
theorem assign_mode (cfg : Config) (host : Host) (full : CStr) (root : Nat)
    (fb : WIN32_FIND_DATA) (sb0 : stat) :
    (Stat.assign cfg host full root fb sb0).2.st_mode
      = ApplyAttributes.mode cfg host
          (if root ≠ 0 then fb.dwFileAttributes ||| FILE_ATTRIBUTE_DIRECTORY
           else fb.dwFileAttributes) (some full) := by
  unfold Stat.assign
  cases host.OpenMetadata full <;> simp only [ApplySize, ApplyTimes, ApplyAttributes] <;>
    split_ifs <;> rfl

/-- The two results of the enumeration lookup. -/
theorem lookup_ret (host : Host) (full : CStr) :
    (Stat.lookup host full).2.1 = .val 0 ∨ (Stat.lookup host full).2.1 = .err .ENOENT := by
  unfold Stat.lookup
  split
  · exact Or.inl rfl
  · split_ifs <;> simp

/-- A non-negative result of `Stat` went through lookup and assignment. -/
theorem Stat_val_inv (cfg : Config) (host : Host) (name : CStr) (sb0 sb : stat) (n : Nat)
    (h : Stat cfg host (some name) (some sb0) = (.val n, some sb)) :
    ∃ full root fb, host.GetFullPathName name = some full ∧
      Stat.lookup host full = (root, .val 0, fb) ∧
      sb = (Stat.assign cfg host full root fb sb0).2 := by
  unfold Stat at h
  simp only at h
  split at h
  · simp at h
  · split at h
    · simp at h
    · split at h
      · simp at h
      · rename_i full hfull
        split at h
        · simp at h
        · split at h
          · rename_i root fb hlook
            simp only [Prod.mk.injEq, Option.some.injEq] at h
            exact ⟨full, root, fb, hfull, hlook, h.2.symm⟩
          · rename_i r1 r2 r3 hne hlook
            simp only [Prod.mk.injEq] at h
            have hr := lookup_ret host full
            rw [hlook] at hr
            simp only at hr
            rcases hr with hr | hr
            · exact absurd hr hne
            · rw [hr] at h
              simp at h

/-- A return of 0 comes from a non-negative result. -/
theorem toExcept_ok (r : Ret) (h : r.toExcept = .ok ()) : ∃ n, r = .val n := by
  cases r with
  | err e => simp [Ret.toExcept] at h
  | val n => exact ⟨n, rfl⟩

/-- A successful lookup is an enumeration hit or a root. -/
theorem lookup_root_or_found (host : Host) (full : CStr) (root : Nat) (fb : WIN32_FIND_DATA)
    (h : Stat.lookup host full = (root, .val 0, fb)) :
    (host.FindFirstFile full = some fb ∧ root = 0) ∨
      (host.FindFirstFile full = none ∧ root ≠ 0) := by
  unfold Stat.lookup at h
  split at h
  · rename_i fb1 hf
    simp only [Prod.mk.injEq] at h
    exact Or.inl ⟨by rw [hf, h.2.2], h.1.symm⟩
  · rename_i hf
    split_ifs at h <;> simp only [Prod.mk.injEq] at h
    · exact Or.inr ⟨hf, by omega⟩
    · exact Or.inr ⟨hf, by omega⟩
    · simp at h
    · simp at h

/-- A successful `w32_lstat` is a non-negative `Stat`. -/
theorem lstat_ok_inv (cfg : Config) (host : Host) (path : CStr) (sb0 sb : stat)
    (hok : w32_lstat cfg host (some path) (some sb0) = (.ok (), some sb)) :
    ∃ n, Stat cfg host (some path) (some sb0) = (.val n, some sb) := by
  unfold w32_lstat at hok
  simp only [Prod.mk.injEq] at hok
  obtain ⟨n, hn⟩ := toExcept_ok _ hok.1
  exact ⟨n, Prod.ext hn hok.2⟩

/-- The directory flag gives the directory tag. -/
theorem tag_of_directory (cfg : Config) (host : Host) (full : CStr) (a : Nat)
    (hdir : hasFlag a FILE_ATTRIBUTE_DIRECTORY = true) :
    ApplyAttributes.mode cfg host a (some full) &&& S_IFMT = S_IFDIR := by
  rw [mode_tag]
  unfold ApplyAttributes.typeBits
  simp only [hdir]
  split_ifs <;> decide

/-- `w32_stat` is `w32_lstat` on the effective path over a zeroed record. -/
theorem stat_eq_lstat_of_effective (cfg : Config) (host : Host) (path : CStr) (sb0 : stat) :
    w32_stat cfg host (some path) (some sb0)
      = match (Readlink host path .default cfg.WIN32_PATH_MAX).1 with
        | .err e => (.error e, some stat.zero)
        | .val _ =>
          w32_lstat cfg host
            (some (if (Readlink host path .default cfg.WIN32_PATH_MAX).1.isPos then
                cstr (Readlink host path .default cfg.WIN32_PATH_MAX).2 else path))
            (some stat.zero) := by
  unfold w32_stat w32_lstat
  simp only
  generalize Readlink host path .default cfg.WIN32_PATH_MAX = r
  obtain ⟨r1, r2⟩ := r
  cases r1 with
  | err e => rfl
  | val n =>
    cases n with
    | zero => simp [Ret.isPos]
    | succ m => simp [Ret.isPos]

/-- The link count after a successful `Stat` is the 1 that `ApplyAttributes` stores. -/
theorem assign_nlink (cfg : Config) (host : Host) (full : CStr) (root : Nat)
    (fb : WIN32_FIND_DATA) (sb0 : stat) :
    (Stat.assign cfg host full root fb sb0).2.st_nlink = 1 := by
  unfold Stat.assign
  cases host.OpenMetadata full <;> simp only [ApplySize, ApplyTimes, ApplyAttributes]

/-- The early rejections of `Stat`. -/
theorem Stat_rejects (cfg : Config) (host : Host) (name : CStr) (sb0 : stat)
    (h : name = [] ∨ (∃ x, name = [x, ':']) ∨ '?' ∈ name ∨ '*' ∈ name) :
    Stat cfg host (some name) (some sb0) = (.err .ENOENT, some sb0) := by
  unfold Stat
  simp only
  rcases h with h | ⟨x, h⟩ | h | h
  · subst h
    rfl
  · subst h
    rw [if_pos (by simp [charAt, NUL])]
  · split
    · rfl
    · rw [if_pos (by simp [h])]
  · split
    · rfl
    · rw [if_pos (by simp [h])]

/-- The errors the attribute lookup of a candidate can record. -/
theorem lastError_cases (rc : Nat) :
    Readlink.lastError rc = .ENOENT ∨ Readlink.lastError rc = .ENOTDIR ∨
    Readlink.lastError rc = .ENAMETOOLONG ∨ Readlink.lastError rc = .EACCES ∨
    Readlink.lastError rc = Errno.EIO := by
  unfold Readlink.lastError
  split_ifs <;> simp

/-- The classification of a candidate keeps the recorded error or gives `EACCES` or `EIO`. -/
theorem classify_error_cases (host : Host) (path : CStr) (maxlen a : Nat) (ret : Ret)
    (buf : List Char) (e : Errno)
    (he : (Readlink.classify host path maxlen a ret buf).1 = .err e) :
    ret = .err e ∨ e = .EACCES ∨ e = Errno.EIO := by
  unfold Readlink.classify at he
  revert he
  cases host.CreateFile_read (cstr buf) <;> simp only [] <;> split_ifs <;> intro he <;>
    first
      | exact Or.inl he
      | (cases he; exact Or.inr (Or.inl rfl))
      | (cases he; exact Or.inr (Or.inr rfl))
      | cases he

/-- The suffix loop records no error beyond the five of the resolver. -/
theorem loop_error_cases (host : Host) (path : CStr) (maxlen length : Nat)
    (table : List CStr) :
    ∀ (ret : Ret) (buf : List Char),
      (∀ e, ret = .err e →
        e = .ENOENT ∨ e = .ENOTDIR ∨ e = .ENAMETOOLONG ∨ e = .EACCES ∨ e = Errno.EIO) →
      ∀ e, (Readlink.loop host path maxlen length table ret buf).1 = .err e →
        e = .ENOENT ∨ e = .ENOTDIR ∨ e = .ENAMETOOLONG ∨ e = .EACCES ∨ e = Errno.EIO := by
  induction table with
  | nil =>
    intro ret buf hret e he
    exact hret e he
  | cons s rest ih =>
    intro ret buf hret e he
    unfold Readlink.loop at he
    split at he
    · exact ih _ _ (by intro e1 h1; cases h1; simp) e he
    · simp only at he
      split at he
      · rename_i rc _
        refine ih _ _ ?_ e he
        intro e1 h1
        cases h1
        exact lastError_cases rc
      · rcases classify_error_cases host path maxlen _ ret _ e he with h1 | h1 | h1
        · exact hret e h1
        · simp [h1]
        · simp [h1]

/-- The errors of `Readlink`. -/
theorem Readlink_error_cases (host : Host) (path : CStr) (sfx : Suffixes) (maxlen : Nat)
    (e : Errno) (he : (Readlink host path sfx maxlen).1 = .err e) :
    e = .ENOENT ∨ e = .ENOTDIR ∨ e = .ENAMETOOLONG ∨ e = .EACCES ∨ e = Errno.EIO := by
  unfold Readlink at he
  simp only at he
  split at he
  · exact loop_error_cases host path maxlen _ _ _ _ (by intro e1 h1; cases h1; simp) e he
  · exact loop_error_cases host path maxlen _ _ _ _ (by intro e1 h1; cases h1; simp) e he

/-- `w32_strslash` skips a prefix without separators. -/
theorem strslash_skip (pre rest : CStr) (s : Char) (hpre : ∀ c ∈ pre, ISSLASH c = false)
    (hs : ISSLASH s = true) :
    w32_strslash (some (pre ++ s :: rest)) = some (s :: rest) := by
  unfold w32_strslash
  simp only
  induction pre with
  | nil => simp [w32_strslash.scan, hs]
  | cons c t ih =>
    have hc : ISSLASH c = false := hpre c (by simp)
    have ht : ∀ c ∈ t, ISSLASH c = false := fun c hc => hpre c (by simp [hc])
    simp only [List.cons_append, w32_strslash.scan, hc, Bool.false_eq_true, if_false]
    exact ih ht

/-- `w32_strslash` finds nothing in a text without separators. -/
theorem strslash_none (pre : CStr) (hpre : ∀ c ∈ pre, ISSLASH c = false) :
    w32_strslash (some pre) = none := by
  unfold w32_strslash
  simp only
  induction pre with
  | nil => simp [w32_strslash.scan]
  | cons c t ih =>
    have hc : ISSLASH c = false := hpre c (by simp)
    have ht : ∀ c ∈ t, ISSLASH c = false := fun c hc => hpre c (by simp [hc])
    simp only [w32_strslash.scan, hc, Bool.false_eq_true, if_false]
    exact ih ht

/-- A successful root lookup whose metadata open succeeds ends in success
with the directory tag. -/
theorem assign_root (cfg : Config) (host : Host) (full : CStr) (root : Nat)
    (fb : WIN32_FIND_DATA) (sb0 : stat) (hroot : root ≠ 0)
    (hopen : host.OpenMetadata full ≠ .openFailed) :
    (Stat.assign cfg host full root fb sb0).1 = .val 0 ∧
    (Stat.assign cfg host full root fb sb0).2.st_mode &&& S_IFMT = S_IFDIR := by
  constructor
  · unfold Stat.assign
    cases h : host.OpenMetadata full with
    | openFailed => exact absurd h hopen
    | infoFailed => rfl
    | info fi => rfl
  · rw [assign_mode, if_pos hroot,
      tag_of_directory cfg host full _ (hasFlag_lor_self _ _ (by decide))]

/-- `Stat` on a name that passes its argument checks and whose absolute form
is a root for the lookup. -/
theorem Stat_of_root_lookup (cfg : Config) (host : Host) (name full : CStr) (sb0 : stat)
    (root : Nat)
    (h1 : charAt name 0 ≠ NUL) (h2 : ¬ (charAt name 1 = ':' ∧ charAt name 2 = NUL))
    (h3 : '?' ∉ name) (h4 : '*' ∉ name)
    (hfull : host.GetFullPathName name = some full)
    (hlen : full.length < cfg.WIN32_PATH_MAX)
    (hlook : Stat.lookup host full = (root, .val 0, host.fb_indeterminate))
    (hroot : root ≠ 0)
    (hopen : host.OpenMetadata full ≠ .openFailed) :
    ∃ sb, Stat cfg host (some name) (some sb0) = (.val 0, some sb) ∧
      sb.st_mode &&& S_IFMT = S_IFDIR := by
  have ha := assign_root cfg host full root host.fb_indeterminate sb0 hroot hopen
  refine ⟨(Stat.assign cfg host full root host.fb_indeterminate sb0).2, ?_, ha.2⟩
  unfold Stat
  simp only
  have hc1 : ¬ (charAt name 0 == NUL || (charAt name 1 == ':' && charAt name 2 == NUL)) = true := by
    rw [Bool.or_eq_true, Bool.and_eq_true]
    simp only [beq_iff_eq]
    rintro (h | h)
    · exact h1 h
    · exact h2 h
  rw [if_neg hc1, if_neg (by simp [h3, h4]), hfull]
  simp only
  rw [if_neg (by omega), hlook]
  simp only [ha.1]

/-- The primed buffer of any path: the path cut to `maxlen - 1` characters,
then NUL cells. -/
theorem primeBuffer_take (path : CStr) (maxlen : Nat) :
    primeBuffer path maxlen
      = path.take (maxlen - 1)
          ++ List.replicate (maxlen - (path.take (maxlen - 1)).length) NUL := by
  unfold primeBuffer
  apply List.ext_getElem
  · simp only [List.length_set, List.length_take, List.length_append, List.length_replicate]
    omega
  · intro i h2 h3
    simp only [List.length_set, List.length_take, List.length_append,
      List.length_replicate] at h2
    simp only [List.getElem_set, List.getElem_take, List.getElem_append,
      List.getElem_replicate, List.length_take]
    by_cases hi : maxlen - 1 = i
    · rw [if_pos hi, dif_neg (by omega)]
    · rw [if_neg hi]
      by_cases hp : i < path.length
      · rw [dif_pos hp, dif_pos (by omega)]
      · rw [dif_neg hp, dif_neg (by omega)]

/-- The length `Readlink` records for any path. -/
theorem strlen_primed_take (path : CStr) (maxlen : Nat) (hn : NUL ∉ path) :
    strlen (primeBuffer path maxlen) = (path.take (maxlen - 1)).length := by
  rw [primeBuffer_take]
  have hb : NUL ∉ path.take (maxlen - 1) := fun h => hn (List.mem_of_mem_take h)
  by_cases hm : maxlen = 0
  · subst hm
    simp [strlen, cstr]
  · have hl : (path.take (maxlen - 1)).length ≤ maxlen - 1 := by
      simp only [List.length_take]
      omega
    have : maxlen - (path.take (maxlen - 1)).length
        = (maxlen - (path.take (maxlen - 1)).length - 1) + 1 := by omega
    rw [this, List.replicate_succ, strlen_append_NUL _ _ hb]

/-- One turn of the suffix loop on a candidate that overflows the capacity. -/
theorem loop_step_overflow (host : Host) (path : CStr) (maxlen length : Nat) (s : CStr)
    (rest : List CStr) (ret : Ret) (buf : List Char) (h : maxlen ≤ length + s.length) :
    Readlink.loop host path maxlen length (s :: rest) ret buf
      = Readlink.loop host path maxlen length rest (.err .ENAMETOOLONG) buf := by
  rw [Readlink.loop, if_pos h]

/-- One turn of the suffix loop on a candidate whose attribute lookup fails,
the working buffer holding the text `base`. -/
theorem loop_step_failed (host : Host) (path base s r : List Char) (maxlen : Nat)
    (rest : List CStr) (ret : Ret) (rc : Nat)
    (hn : NUL ∉ base ++ s) (hlen : base.length + s.length < maxlen)
    (hr : r.length = maxlen - base.length)
    (ha : host.GetFileAttributes (base ++ s) = .failed rc) :
    Readlink.loop host path maxlen base.length (s :: rest) ret (base ++ r)
      = Readlink.loop host path maxlen base.length rest (.err (Readlink.lastError rc))
          (base ++ (s ++ NUL :: r.drop (s.length + 1))) := by
  rw [Readlink.loop, if_neg (by omega)]
  simp only
  rw [strcpyAt_append _ _ _ (by omega), cstr_append_NUL _ _ hn, ha]
  simp

/-- The suffix loop over candidates that all fail: the last one decides. -/
theorem loop_all_fail (host : Host) (path base last : List Char) (maxlen : Nat)
    (hb : NUL ∉ base) (hl : NUL ∉ last) :
    ∀ (init : List CStr) (ret : Ret) (r : List Char),
      r.length = maxlen - base.length →
      (∀ s ∈ init, NUL ∉ s) →
      (∀ s ∈ init, maxlen ≤ base.length + s.length ∨
        ∃ rc, host.GetFileAttributes (base ++ s) = .failed rc) →
      (maxlen ≤ base.length + last.length →
        (Readlink.loop host path maxlen base.length (init ++ [last]) ret (base ++ r)).1
          = .err .ENAMETOOLONG) ∧
      (∀ rc, base.length + last.length < maxlen →
        host.GetFileAttributes (base ++ last) = .failed rc →
        (Readlink.loop host path maxlen base.length (init ++ [last]) ret (base ++ r)).1
          = .err (Readlink.lastError rc)) := by
  intro init
  induction init with
  | nil =>
    intro ret r hr _ _
    constructor
    · intro ho
      rw [List.nil_append, loop_step_overflow _ _ _ _ _ _ _ _ ho]
      rfl
    · intro rc hfit ha
      have hn : NUL ∉ base ++ last := by
        intro hm
        rcases List.mem_append.1 hm with h | h
        · exact hb h
        · exact hl h
      rw [List.nil_append, loop_step_failed host path base last r maxlen [] ret rc hn hfit hr ha]
      rfl
  | cons s t ih =>
    intro ret r hr hnul hfail
    have hs : NUL ∉ s := hnul s (by simp)
    have ht : ∀ x ∈ t, NUL ∉ x := fun x hx => hnul x (by simp [hx])
    have hft : ∀ x ∈ t, maxlen ≤ base.length + x.length ∨
        ∃ rc, host.GetFileAttributes (base ++ x) = .failed rc :=
      fun x hx => hfail x (by simp [hx])
    by_cases ho : maxlen ≤ base.length + s.length
    · rw [List.cons_append, loop_step_overflow _ _ _ _ _ _ _ _ ho]
      exact ih _ r hr ht hft
    · rcases hfail s (by simp) with h | ⟨rc, ha⟩
      · exact absurd h ho
      · have hn : NUL ∉ base ++ s := by
          intro hm
          rcases List.mem_append.1 hm with h | h
          · exact hb h
          · exact hs h
        rw [List.cons_append,
          loop_step_failed host path base s r maxlen _ ret rc hn (by omega) hr ha]
        exact ih _ _ (by simp; omega) ht hft

/-- The device fields `Stat` stores. -/
theorem assign_dev (cfg : Config) (host : Host) (full : CStr) (root : Nat)
    (fb : WIN32_FIND_DATA) (sb0 : stat) :
    (Stat.assign cfg host full root fb sb0).2.st_dev = dev_t.ofInt (Stat.drive full - 1) ∧
    (Stat.assign cfg host full root fb sb0).2.st_rdev = dev_t.ofInt (Stat.drive full - 1) :=
  ⟨rfl, rfl⟩

/-- The names `ApplyAttributes` takes for a root: nothing or one separator,
after an optional drive designator. -/
theorem isRoot_stripDrive_iff (n : CStr) (hn : NUL ∉ n) :
    ApplyAttributes.isRoot (ApplyAttributes.stripDrive n) = true ↔
      (n = [] ∨ (∃ s, ISSLASH s = true ∧ n = [s]) ∨ (∃ x, n = [x, ':']) ∨
        (∃ x s, ISSLASH s = true ∧ n = [x, ':', s])) := by
  match n, hn with
  | [], _ => simp [ApplyAttributes.isRoot, ApplyAttributes.stripDrive, charAt]
  | [a], hn =>
    have ha : a ≠ NUL := fun e => hn (by simp [e])
    have hc : ¬ (NUL = ':') := by decide
    by_cases hs : ISSLASH a = true <;>
      simp [ApplyAttributes.isRoot, ApplyAttributes.stripDrive, charAt, ha, hs, hc]
  | [a, b], hn =>
    have ha : a ≠ NUL := fun e => hn (by simp [e])
    have hb : b ≠ NUL := fun e => hn (by simp [e])
    by_cases hc : b = ':' <;>
      simp [ApplyAttributes.isRoot, ApplyAttributes.stripDrive, charAt, ha, hb, hc]
  | [a, b, c], hn =>
    have ha : a ≠ NUL := fun e => hn (by simp [e])
    have hb : b ≠ NUL := fun e => hn (by simp [e])
    have hc' : c ≠ NUL := fun e => hn (by simp [e])
    by_cases hc : b = ':' <;> by_cases hs : ISSLASH c = true <;>
      simp [ApplyAttributes.isRoot, ApplyAttributes.stripDrive, charAt, ha, hb, hc', hc, hs]
  | a :: b :: c :: d :: t, hn =>
    have ha : a ≠ NUL := fun e => hn (by simp [e])
    have hb : b ≠ NUL := fun e => hn (by simp [e])
    have hc' : c ≠ NUL := fun e => hn (by simp [e])
    have hd : d ≠ NUL := fun e => hn (by simp [e])
    by_cases hc : b = ':' <;>
      simp [ApplyAttributes.isRoot, ApplyAttributes.stripDrive, charAt, ha, hb, hc', hd, hc]

/-- C `strrchr` finds nothing exactly when the character does not occur. -/
theorem strrchr_none_iff (s : CStr) (c : Char) : strrchr s c = none ↔ c ∉ s := by
  induction s with
  | nil => simp [strrchr]
  | cons x xs ih =>
    unfold strrchr
    cases h : strrchr xs c with
    | some t =>
      have : c ∈ xs := by
        by_contra hc
        rw [ih.2 hc] at h
        cases h
      simp [this]
    | none =>
      have hc : c ∉ xs := ih.1 h
      by_cases hx : x = c
      · simp [hx]
      · have hx2 : ¬ c = x := fun e => hx e.symm
        simp [hx, hx2, hc]

/-- C `strrchr` returns the text from the last occurrence of the character. -/
theorem strrchr_some (s : CStr) (c : Char) (t : CStr) (h : strrchr s c = some t) :
    ∃ pre rest, s = pre ++ c :: rest ∧ t = c :: rest ∧ c ∉ rest := by
  induction s with
  | nil => simp [strrchr] at h
  | cons x xs ih =>
    unfold strrchr at h
    cases h1 : strrchr xs c with
    | some t1 =>
      rw [h1] at h
      simp only [Option.some.injEq] at h
      subst h
      obtain ⟨pre, rest, e1, e2, e3⟩ := ih h1
      exact ⟨x :: pre, rest, by simp [e1], e2, e3⟩
    | none =>
      rw [h1] at h
      simp only at h
      by_cases hx : x = c
      · subst hx
        simp only [beq_self_eq_true, if_true, Option.some.injEq] at h
        exact ⟨[], xs, rfl, h.symm, (strrchr_none_iff xs x).1 h1⟩
      · have : (x == c) = false := by simp [hx]
        rw [this] at h
        simp at h

/-- No extension is on both tables of `IsExec`, whatever the case. -/
theorem exec_tables_disjoint :
    ∀ e1 ∈ exec_assume, ∀ e2 ∈ exec_exclude, e1.map lowerAscii ≠ e2.map lowerAscii := by
  decide

/-- One turn of the suffix loop on a candidate whose attribute lookup
succeeds, the working buffer holding the text `base`. -/
theorem loop_step_found (host : Host) (path base s r : List Char) (maxlen : Nat)
    (rest : List CStr) (ret : Ret) (a : Nat)
    (hn : NUL ∉ base ++ s) (hlen : base.length + s.length < maxlen)
    (hr : r.length = maxlen - base.length)
    (ha : host.GetFileAttributes (base ++ s) = .attrs a) :
    Readlink.loop host path maxlen base.length (s :: rest) ret (base ++ r)
      = Readlink.classify host path maxlen a ret
          ((base ++ s) ++ NUL :: r.drop (s.length + 1)) := by
  rw [Readlink.loop, if_neg (by omega)]
  simp only
  rw [strcpyAt_append _ _ _ (by omega), cstr_append_NUL _ _ hn, ha]

/-- A candidate with the directory, compressed, device or encrypted
attribute ends the loop with zero and leaves the buffer as it is. -/
theorem classify_not_link (host : Host) (path : CStr) (maxlen a : Nat) (ret : Ret)
    (buf : List Char)
    (hf : (hasFlag a FILE_ATTRIBUTE_DIRECTORY || hasFlag a FILE_ATTRIBUTE_COMPRESSED ||
      hasFlag a FILE_ATTRIBUTE_DEVICE || hasFlag a FILE_ATTRIBUTE_ENCRYPTED) = true) :
    Readlink.classify host path maxlen a ret buf = (.val 0, buf) := by
  unfold Readlink.classify
  rw [if_pos hf]

/-- The suffix loop over leading candidates that overflow or fail the
attribute lookup: it goes on with the rest, and the value and buffer it goes
on with are those of every host with the same attribute lookup. -/
theorem loop_skip_failed (host : Host) (path base : List Char) (maxlen : Nat)
    (hb : NUL ∉ base) (tail : List CStr) :
    ∀ (init : List CStr) (ret : Ret) (r : List Char),
      r.length = maxlen - base.length →
      (∀ s ∈ init, NUL ∉ s) →
      (∀ s ∈ init, maxlen ≤ base.length + s.length ∨
        ∃ rc, host.GetFileAttributes (base ++ s) = .failed rc) →
      ∃ ret1 r1, r1.length = maxlen - base.length ∧
        ∀ host1 : Host, host1.GetFileAttributes = host.GetFileAttributes →
          Readlink.loop host1 path maxlen base.length (init ++ tail) ret (base ++ r)
            = Readlink.loop host1 path maxlen base.length tail ret1 (base ++ r1) := by
  intro init
  induction init with
  | nil =>
    intro ret r hr _ _
    exact ⟨ret, r, hr, fun _ _ => rfl⟩
  | cons s t ih =>
    intro ret r hr hnul hfail
    have hs : NUL ∉ s := hnul s (by simp)
    have ht : ∀ x ∈ t, NUL ∉ x := fun x hx => hnul x (by simp [hx])
    have hft : ∀ x ∈ t, maxlen ≤ base.length + x.length ∨
        ∃ rc, host.GetFileAttributes (base ++ x) = .failed rc :=
      fun x hx => hfail x (by simp [hx])
    by_cases ho : maxlen ≤ base.length + s.length
    · obtain ⟨ret1, r1, hr1, h1⟩ := ih (.err .ENAMETOOLONG) r hr ht hft
      refine ⟨ret1, r1, hr1, fun host1 hh => ?_⟩
      rw [List.cons_append, loop_step_overflow _ _ _ _ _ _ _ _ ho]
      exact h1 host1 hh
    · rcases hfail s (by simp) with h | ⟨rc, ha⟩
      · exact absurd h ho
      · have hn : NUL ∉ base ++ s := by
          intro hm
          rcases List.mem_append.1 hm with h | h
          · exact hb h
          · exact hs h
        obtain ⟨ret1, r1, hr1, h1⟩ := ih (.err (Readlink.lastError rc))
          (s ++ NUL :: r.drop (s.length + 1)) (by simp; omega) ht hft
        refine ⟨ret1, r1, hr1, fun host1 hh => ?_⟩
        rw [List.cons_append,
          loop_step_failed host1 path base s r maxlen _ ret rc hn (by omega) hr
            (by rw [hh]; exact ha)]
        exact h1 host1 hh

/-- An empty name or one separator, after an optional drive designator, is
a root for `ApplyAttributes`. -/
theorem isRoot_of_shape (n : CStr)
    (h : n = [] ∨ (∃ s, ISSLASH s = true ∧ n = [s]) ∨ (∃ x, n = [x, ':']) ∨
      (∃ x s, ISSLASH s = true ∧ n = [x, ':', s])) :
    ApplyAttributes.isRoot (ApplyAttributes.stripDrive n) = true := by
  have hc : ¬ (NUL = ':') := by decide
  rcases h with h | ⟨s, hs, h⟩ | ⟨x, h⟩ | ⟨x, s, hs, h⟩
  · subst h
    decide
  · subst h
    simp [ApplyAttributes.isRoot, ApplyAttributes.stripDrive, charAt, hs, hc]
  · subst h
    by_cases hx : x = NUL <;>
      simp [ApplyAttributes.isRoot, ApplyAttributes.stripDrive, charAt, hx]
  · subst h
    by_cases hx : x = NUL <;>
      simp [ApplyAttributes.isRoot, ApplyAttributes.stripDrive, charAt, hx, hs]

/-- The redirected open: on a path the resolver reports as a link and a flag
word without `O_NOFOLLOW`, `w32_open` ends in its single call of `_open`, on
the C string the resolver buffer holds; the mode is the supplied one when
`O_CREAT` is set; the flags are unchanged when `O_CREAT` is set without
`O_EXCL` (and whenever the two are not both set), and lose exactly the bits of
`O_CREAT|O_EXCL` when both are set. -/
theorem w32_open_redirected (cfg : Config) (host : Host) (path : CStr) (oflag : Nat)
    (arg : Int)
    (hlink : (Readlink host path .default cfg.WIN32_PATH_MAX).1.isPos = true)
    (hnofollow : oflag &&& cfg.O_NOFOLLOW = 0) :
    ∃ fl md,
      w32_open_call cfg host path oflag arg
        = .trueOpen (cstr (Readlink host path .default cfg.WIN32_PATH_MAX).2) fl md ∧
      w32_open cfg host path oflag arg
        = host.true_open (cstr (Readlink host path .default cfg.WIN32_PATH_MAX).2) fl md ∧
      (oflag &&& cfg.O_CREAT ≠ 0 → md = arg) ∧
      (oflag &&& cfg.O_CREAT ≠ 0 → oflag &&& cfg.O_EXCL ≠ cfg.O_EXCL → fl = oflag) ∧
      (oflag &&& (cfg.O_CREAT ||| cfg.O_EXCL) ≠ (cfg.O_CREAT ||| cfg.O_EXCL) → fl = oflag) ∧
      (oflag &&& (cfg.O_CREAT ||| cfg.O_EXCL) = (cfg.O_CREAT ||| cfg.O_EXCL) →
        fl = clearFlags oflag (cfg.O_CREAT ||| cfg.O_EXCL) ∧
        ∀ i, fl.testBit i = (oflag.testBit i && !(cfg.O_CREAT ||| cfg.O_EXCL).testBit i)) := by
  have hcall := w32_open_call_link cfg host path oflag arg hlink
  rw [if_neg (by simp [hnofollow])] at hcall
  refine ⟨_, _, hcall, ?_, ?_, ?_, ?_, ?_⟩
  · simp only [w32_open, hcall]
  · intro hc
    rw [if_pos hc]
  · intro _ he
    rw [if_neg (fun hb => he (and_lor_eq_imp _ _ _ hb))]
  · intro hb
    rw [if_neg hb]
  · intro hb
    rw [if_pos hb]
    exact ⟨rfl, fun i => testBit_clearFlags _ _ i⟩

/-! ## Claims -/

/-- C2 (the code at the failing input): `a.lnk` is a link to the existing
file `b`; `w32_open("a.lnk", O_CREAT|O_EXCL|1, 0644)` clears both flags, calls
`_open("b", 1, 0644)` and returns its descriptor 3, where the claim and the
comments of the source announce -1 with `EEXIST`. -/
theorem w32_open_creat_excl_follows_link :
    (Readlink linkToExistingHost "a.lnk".toList .default cfg0.WIN32_PATH_MAX).1.isPos = true ∧
    w32_open_call cfg0 linkToExistingHost "a.lnk".toList (cfg0.O_CREAT ||| cfg0.O_EXCL ||| 1) 0o644
      = .trueOpen "b".toList 1 0o644 ∧
    w32_open cfg0 linkToExistingHost "a.lnk".toList (cfg0.O_CREAT ||| cfg0.O_EXCL ||| 1) 0o644
      = .ok 3 := by
  decide

/-- C3 (the code at the failing input): `C:\old` is a plain-text marker link
whose content gives the target `abc` with no terminator. The resolver reports
a link of length 3 and its first 3 cells are `abc`, the decoded target, yet
`w32_open` calls `_open` on `abcold`, the target followed by what the buffer
held of the path: the existing file `abc` is not opened and the call fails
with `ENOENT`. -/
theorem w32_open_stale_target :
    (Readlink staleOpenHost "C:\\old".toList .default cfg0.WIN32_PATH_MAX).1 = .val 3 ∧
    (Readlink staleOpenHost "C:\\old".toList .default cfg0.WIN32_PATH_MAX).2.take 3
      = "abc".toList ∧
    0 &&& cfg0.O_NOFOLLOW = 0 ∧
    w32_open_call cfg0 staleOpenHost "C:\\old".toList 0 0 = .trueOpen "abcold".toList 0 0 ∧
    staleOpenHost.true_open "abc".toList 0 0 = .ok 3 ∧
    w32_open cfg0 staleOpenHost "C:\\old".toList 0 0 = .error .ENOENT := by
  decide

/-- C4: on a path the resolver reports as a link, `w32_open` with
`O_NOFOLLOW` set returns -1 with `ELOOP` and does not call `_open`, whatever
the other flags are. -/
theorem w32_open_nofollow_ELOOP (cfg : Config) (host : Host) (path : CStr) (oflag : Nat)
    (arg : Int)
    (hlink : (Readlink host path .default cfg.WIN32_PATH_MAX).1.isPos = true)
    (hnofollow : oflag &&& cfg.O_NOFOLLOW ≠ 0) :
    w32_open_call cfg host path oflag arg = .refused .ELOOP ∧
    w32_open cfg host path oflag arg = .error .ELOOP := by
  have hN : cfg.O_NOFOLLOW ≠ 0 := by
    intro h0
    rw [h0] at hnofollow
    simp at hnofollow
  have hcall := w32_open_call_link cfg host path oflag arg hlink
  rw [if_pos ⟨hN, hnofollow⟩] at hcall
  exact ⟨hcall, by simp only [w32_open, hcall]⟩

/-- Witness of the refusal: the scenario link, flags `O_NOFOLLOW|O_CREAT|O_EXCL`. -/
theorem w32_open_nofollow_ELOOP_witness :
    (Readlink reportHost "C:\\data\\report".toList .default
      cfgNoFollow.WIN32_PATH_MAX).1.isPos = true ∧
    0x20500 &&& cfgNoFollow.O_NOFOLLOW ≠ 0 ∧
    w32_open_call cfgNoFollow reportHost "C:\\data\\report".toList 0x20500 0o644
      = .refused .ELOOP ∧
    w32_open cfgNoFollow reportHost "C:\\data\\report".toList 0x20500 0o644 = .error .ELOOP :=
  ⟨by decide, by decide,
    w32_open_nofollow_ELOOP cfgNoFollow reportHost "C:\\data\\report".toList 0x20500 0o644
      (by decide) (by decide)⟩

/-- C5: on a negative resolver result `-e`, `w32_open` calls `_open` on the
original path with the original flags and the supplied mode when `O_CREAT` is
set and `e` is `ENOENT` or `ENOTDIR`; in every other case it returns -1 with
errno `e` and does not call `_open`. -/
theorem w32_open_negative (cfg : Config) (host : Host) (path : CStr) (oflag : Nat)
    (arg : Int) (e : Errno)
    (hneg : (Readlink host path .default cfg.WIN32_PATH_MAX).1 = .err e) :
    (oflag &&& cfg.O_CREAT ≠ 0 ∧ (e = .ENOENT ∨ e = .ENOTDIR) →
      w32_open_call cfg host path oflag arg = .trueOpen path oflag arg ∧
      w32_open cfg host path oflag arg = host.true_open path oflag arg) ∧
    (¬ (oflag &&& cfg.O_CREAT ≠ 0 ∧ (e = .ENOENT ∨ e = .ENOTDIR)) →
      w32_open_call cfg host path oflag arg = .refused e ∧
      w32_open cfg host path oflag arg = .error e) := by
  have hcall : w32_open_call cfg host path oflag arg
      = if oflag &&& cfg.O_CREAT ≠ 0 ∧ (e = .ENOTDIR ∨ e = .ENOENT) then
          .trueOpen path oflag (if oflag &&& cfg.O_CREAT ≠ 0 then arg else 0)
        else .refused e := by
    unfold w32_open_call
    generalize Readlink host path .default cfg.WIN32_PATH_MAX = r at hneg ⊢
    obtain ⟨r1, r2⟩ := r
    simp only at hneg
    subst hneg
    rfl
  constructor
  · rintro ⟨hc, he⟩
    rw [if_pos ⟨hc, he.symm⟩, if_pos hc] at hcall
    exact ⟨hcall, by simp only [w32_open, hcall]⟩
  · intro hno
    rw [if_neg (fun h => hno ⟨h.1, h.2.symm⟩)] at hcall
    exact ⟨hcall, by simp only [w32_open, hcall]⟩

/-- Witness of the negative branch: a missing file, with and without
`O_CREAT`. -/
theorem w32_open_negative_witness :
    (Readlink emptyHost "new.txt".toList .default cfg0.WIN32_PATH_MAX).1 = .err .ENOENT ∧
    w32_open_call cfg0 emptyHost "new.txt".toList 0x101 0o644
      = .trueOpen "new.txt".toList 0x101 0o644 ∧
    w32_open_call cfg0 emptyHost "new.txt".toList 1 0 = .refused .ENOENT :=
  ⟨by decide,
    ((w32_open_negative cfg0 emptyHost "new.txt".toList 0x101 0o644 .ENOENT (by decide)).1
      ⟨by decide, Or.inl rfl⟩).1,
    ((w32_open_negative cfg0 emptyHost "new.txt".toList 1 0 .ENOENT (by decide)).2
      (by decide)).1⟩

/-- C6, as stated, fails: the plain file `f` exists, is no directory and no
link under any encoding, but carries the offline attribute, and `w32_readlink`
returns -1 with `EACCES`. -/
theorem w32_readlink_offline_EACCES :
    offlineHost.GetFileAttributes "f".toList
      = .attrs (FILE_ATTRIBUTE_OFFLINE ||| FILE_ATTRIBUTE_ARCHIVE) ∧
    hasFlag (FILE_ATTRIBUTE_OFFLINE ||| FILE_ATTRIBUTE_ARCHIVE) FILE_ATTRIBUTE_DIRECTORY = false ∧
    hasFlag (FILE_ATTRIBUTE_OFFLINE ||| FILE_ATTRIBUTE_ARCHIVE) FILE_ATTRIBUTE_REPARSE_POINT
      = false ∧
    offlineHost.CreateFile_read "f".toList
      = some { content := "plain".toList, headerReadOk := true, bodyReadOk := true } ∧
    hasShortcutMagic ("plain".toList.take CYGWIN_COOKIE.length) = false ∧
    hasCygwinCookie ("plain".toList.take CYGWIN_COOKIE.length) = false ∧
    (w32_readlink offlineHost (some "f".toList) (some []) 1024).1 = .error .EACCES := by
  decide

/-- C6 (amended): for a path that fits the buffer, whose literal attribute
lookup succeeds without the reparse-point and offline flags, and whose content,
where the `.lnk` extension or the system-without-hidden attributes make
`Readlink` read it, can be opened and read and shows neither the shortcut
magic nor the plain-text marker, `w32_readlink` returns -1 with `EINVAL`. -/
theorem w32_readlink_not_link_EINVAL (host : Host) (path : CStr) (maxlen a : Nat)
    (buf0 : List Char)
    (hn : NUL ∉ path) (hlen : path.length < maxlen)
    (ha : host.GetFileAttributes path = .attrs a)
    (hrep : hasFlag a FILE_ATTRIBUTE_REPARSE_POINT = false)
    (hoff : hasFlag a FILE_ATTRIBUTE_OFFLINE = false)
    (hcontent : IsExtension path (some ".lnk".toList) = true ∨
        a &&& (FILE_ATTRIBUTE_HIDDEN ||| CYGWIN_ATTRS) = CYGWIN_ATTRS →
      ∃ fh, host.CreateFile_read path = some fh ∧ fh.headerReadOk = true ∧
        hasShortcutMagic (fh.content.take CYGWIN_COOKIE.length) = false ∧
        hasCygwinCookie (fh.content.take CYGWIN_COOKIE.length) = false) :
    (w32_readlink host (some path) (some buf0) maxlen).1 = .error .EINVAL := by
  have hloop := Readlink_loop_found host path [] (List.replicate (maxlen - path.length) NUL)
    maxlen [".lnk".toList] (.err .ENOENT) a (by simpa using hn) (by simpa using hlen) (by simp)
    (by simpa using ha)
  rw [← primeBuffer_eq path maxlen hlen] at hloop
  have hname : cstr (path ++ [] ++ NUL :: List.drop (([] : List Char).length + 1)
      (List.replicate (maxlen - path.length) NUL)) = path := by
    rw [List.append_nil, cstr_append_NUL _ _ hn]
  have hcls : ∃ b, Readlink.classify host path maxlen a (.err .ENOENT)
      (path ++ [] ++ NUL :: List.drop (([] : List Char).length + 1)
        (List.replicate (maxlen - path.length) NUL)) = (.val 0, b) := by
    unfold Readlink.classify
    rw [hname]
    simp only [hrep, hoff]
    split
    · exact ⟨_, rfl⟩
    · simp only [Bool.false_eq_true, if_false]
      split
      · rename_i hc
        obtain ⟨fh, h1, h2, h3, h4⟩ := hcontent (by simpa using hc)
        simp only [h1, h2, h3, h4]
        simp
      · exact ⟨_, rfl⟩
  obtain ⟨b, hb⟩ := hcls
  rw [hb] at hloop
  have hfin := Readlink_of_loop_zero host path maxlen .default b hn hlen hloop
  unfold w32_readlink
  simp only [hfin]

/-- Witness of `EINVAL`: the text file `notes.lnk`, whose header is read. -/
theorem w32_readlink_not_link_EINVAL_witness :
    NUL ∉ "notes.lnk".toList ∧
    plainLnkHost.GetFileAttributes "notes.lnk".toList = .attrs FILE_ATTRIBUTE_ARCHIVE ∧
    IsExtension "notes.lnk".toList (some ".lnk".toList) = true ∧
    (w32_readlink plainLnkHost (some "notes.lnk".toList) (some []) 64).1 = .error .EINVAL :=
  ⟨by decide, by decide, by decide,
    w32_readlink_not_link_EINVAL plainLnkHost "notes.lnk".toList 64 FILE_ATTRIBUTE_ARCHIVE []
      (by decide) (by decide) (by decide) (by decide) (by decide)
      (fun _ => ⟨{ content := "plain text".toList, headerReadOk := true, bodyReadOk := true },
        by decide, by decide, by decide, by decide⟩)⟩

/-- C7, as stated, fails: in the scenario `w32_readlink("C:\data\report")`
returns 18, the length of the target, not 19, and the buffer holds the target
with forward slashes. -/
theorem w32_readlink_report_not_19 :
    reportHost.GetFileAttributes "C:\\data\\report".toList = .failed ERROR_FILE_NOT_FOUND ∧
    reportHost.ShellLink_Load "C:\\data\\report.lnk".toList
      = some (shellLinkTo "C:\\data\\report.txt".toList) ∧
    (w32_readlink reportHost (some "C:\\data\\report".toList) (some []) 1024).1 = .ok 18 ∧
    ((w32_readlink reportHost (some "C:\\data\\report".toList) (some []) 1024).2.map cstr)
      = some "C:/data/report.txt".toList ∧
    ¬ ((w32_readlink reportHost (some "C:\\data\\report".toList) (some []) 1024).1 = .ok 19 ∧
       (w32_readlink reportHost (some "C:\\data\\report".toList) (some []) 1024).2.map cstr
        = some "C:\\data\\report.txt".toList) := by
  decide

/-- C7 (amended): when `C:\data\report` fails its attribute lookup and
`C:\data\report.lnk` is a shortcut file that the resolver reads as one (its
attribute word carries none of the directory, compressed, device, encrypted,
reparse-point and offline flags, it opens for reading, its header is read and
starts with the shortcut magic, and the shell link loads and yields its path)
and whose decoded target is `C:\data\report.txt`,
`w32_readlink("C:\data\report")` with a capacity above 18 returns 18 and the
buffer holds `C:/data/report.txt` followed by a NUL. -/
theorem w32_readlink_report_scenario (host : Host) (maxlen a rc : Nat) (fh : ReadHandle)
    (sl : ShellLink) (buf0 : List Char)
    (hcap : 18 < maxlen)
    (hmiss : host.GetFileAttributes "C:\\data\\report".toList = .failed rc)
    (ha : host.GetFileAttributes "C:\\data\\report.lnk".toList = .attrs a)
    (hf1 : hasFlag a FILE_ATTRIBUTE_DIRECTORY = false)
    (hf2 : hasFlag a FILE_ATTRIBUTE_COMPRESSED = false)
    (hf3 : hasFlag a FILE_ATTRIBUTE_DEVICE = false)
    (hf4 : hasFlag a FILE_ATTRIBUTE_ENCRYPTED = false)
    (hf5 : hasFlag a FILE_ATTRIBUTE_REPARSE_POINT = false)
    (hf6 : hasFlag a FILE_ATTRIBUTE_OFFLINE = false)
    (hopen : host.CreateFile_read "C:\\data\\report.lnk".toList = some fh)
    (hread : fh.headerReadOk = true)
    (hmagic : hasShortcutMagic (fh.content.take CYGWIN_COOKIE.length) = true)
    (hload : host.ShellLink_Load "C:\\data\\report.lnk".toList = some sl)
    (hp : SUCCEEDED sl.hresPath = true)
    (hpath : sl.path = "C:\\data\\report.txt".toList) :
    ∃ b, w32_readlink host (some "C:\\data\\report".toList) (some buf0) maxlen
          = (.ok 18, some b) ∧
      cstr b = "C:/data/report.txt".toList := by
  have he : "C:\\data\\report".toList ++ ".lnk".toList = "C:\\data\\report.lnk".toList := by
    decide
  obtain ⟨b, hb, hc⟩ := Readlink_shortcut_suffix host "C:\\data\\report".toList maxlen a rc sl fh
    (by decide) (by
      have : ("C:\\data\\report".toList).length = 14 := by decide
      omega)
    hmiss (he ▸ ha) hf1 hf2 hf3 hf4 hf5 hf6 (by rw [he]; decide) (he ▸ hopen) hread hmagic
    (he ▸ hload) hp (by rw [hpath]; decide) (by rw [hpath]; decide)
    (by
      have : ("C:\\data\\report.txt".toList).length = 18 := by decide
      rw [hpath]; omega)
  have h18 : sl.path.length = 18 := by rw [hpath]; decide
  rw [h18] at hb
  refine ⟨b, w32_readlink_of_Readlink host _ buf0 b maxlen 18 (by omega) hb, ?_⟩
  rw [hc, hpath]
  decide

/-- Witness of the scenario on `reportHost` with capacity 64. -/
theorem w32_readlink_report_scenario_witness :
    ∃ b, w32_readlink reportHost (some "C:\\data\\report".toList) (some []) 64
          = (.ok 18, some b) ∧
      cstr b = "C:/data/report.txt".toList :=
  w32_readlink_report_scenario reportHost 64 FILE_ATTRIBUTE_ARCHIVE ERROR_FILE_NOT_FOUND
    { content := SHORTCUT_COOKIE ++ [], headerReadOk := true, bodyReadOk := true }
    (shellLinkTo "C:\\data\\report.txt".toList) [] (by decide) (by decide) (by decide)
    (by decide) (by decide) (by decide) (by decide) (by decide) (by decide) (by decide)
    (by decide) (by decide) (by decide) (by decide) (by decide)

/-- C8, as stated, fails: `C:\dlink` is a native symbolic link (a reparse
point with the symlink tag) to a directory; `w32_lstat` succeeds and reports
the directory tag, not the symlink tag. -/
theorem w32_lstat_directory_symlink :
    dirSymlinkHost.GetFileAttributes "C:\\dlink".toList
      = .attrs (FILE_ATTRIBUTE_DIRECTORY ||| FILE_ATTRIBUTE_REPARSE_POINT) ∧
    dirSymlinkHost.GetReparsePoint "C:\\dlink".toList
      = .data { ReparseTag := IO_REPARSE_TAG_SYMLINK, SubstituteNameLength := 14,
                name := "C:\\data".toList } ∧
    (w32_lstat cfg0 dirSymlinkHost (some "C:\\dlink".toList) (some stat.zero)).1 = .ok () ∧
    (w32_lstat cfg0 dirSymlinkHost (some "C:\\dlink".toList) (some stat.zero)).2.map
        (fun sb => sb.st_mode &&& S_IFMT) = some S_IFDIR ∧
    S_IFDIR ≠ S_IFLNK := by
  decide

/-- C8 (amended): when `w32_lstat` succeeds on a path whose absolute name the
enumeration finds, that is no root, whose record lacks the directory flag and
that is a link (the record has the reparse-point flag, or the literal probe of
the absolute name is positive), the mode carries the symlink tag; nothing is
asked of the link's target. -/
theorem w32_lstat_link_tag (cfg : Config) (host : Host) (path full : CStr) (sb0 sb : stat)
    (fb : WIN32_FIND_DATA)
    (hok : w32_lstat cfg host (some path) (some sb0) = (.ok (), some sb))
    (hfull : host.GetFullPathName path = some full)
    (hfind : host.FindFirstFile full = some fb)
    (hnotroot : ApplyAttributes.isRoot (ApplyAttributes.stripDrive full) = false)
    (hnodir : hasFlag fb.dwFileAttributes FILE_ATTRIBUTE_DIRECTORY = false)
    (hlink : hasFlag fb.dwFileAttributes FILE_ATTRIBUTE_REPARSE_POINT = true ∨
      (Readlink host full .null cfg.WIN32_PATH_MAX).1.isPos = true) :
    sb.st_mode &&& S_IFMT = S_IFLNK := by
  obtain ⟨n, hn⟩ := lstat_ok_inv cfg host path sb0 sb hok
  obtain ⟨full1, root, fb1, hf1, hlook, hsb⟩ := Stat_val_inv cfg host path sb0 sb n hn
  rw [hfull] at hf1
  cases hf1
  rcases lookup_root_or_found host full root fb1 hlook with ⟨hff, hr⟩ | ⟨hff, _⟩
  · rw [hfind] at hff
    cases hff
    subst hr
    rw [hsb, assign_mode, mode_tag]
    unfold ApplyAttributes.typeBits
    simp only [hnotroot, hnodir, ne_eq, not_true_eq_false, if_false]
    rcases hlink with h | h <;> simp only [h] <;> simp <;> decide
  · rw [hfind] at hff
    cases hff

/-- Witness of the symlink tag: the shortcut `C:\a.lnk`. -/
theorem w32_lstat_link_tag_witness :
    w32_lstat cfg0 chainHost (some "C:\\a.lnk".toList) (some stat.zero)
      = (.ok (), (w32_lstat cfg0 chainHost (some "C:\\a.lnk".toList) (some stat.zero)).2) ∧
    (w32_lstat cfg0 chainHost (some "C:\\a.lnk".toList) (some stat.zero)).2.map
        (fun sb => sb.st_mode &&& S_IFMT) = some S_IFLNK :=
  ⟨by decide, by
    have h := w32_lstat_link_tag cfg0 chainHost "C:\\a.lnk".toList "C:\\a.lnk".toList stat.zero
      (((w32_lstat cfg0 chainHost (some "C:\\a.lnk".toList) (some stat.zero)).2).getD stat.zero)
      (findData FILE_ATTRIBUTE_ARCHIVE) (by decide) (by decide) (by decide) (by decide)
      (by decide) (Or.inr (by decide))
    rw [← h]
    decide⟩

/-- C11 (the code at the failing input): the file `C:\f` has two hard links
(the precise metadata query reports the link count 2); `w32_lstat` and
`w32_stat` succeed on it with the link count 1, the value `ApplyAttributes`
stores over the one `Stat` stored before; `w32_fstat` on a descriptor of the
same file, which stores the count after `ApplyAttributes`, reports 2. -/
theorem Stat_link_count_overwritten :
    hardLinkHost.OpenMetadata "C:\\f".toList = .info hardLinkInfo ∧
    hardLinkInfo.nNumberOfLinks = 2 ∧
    (w32_lstat cfg0 hardLinkHost (some "C:\\f".toList) (some stat.zero)).1 = .ok () ∧
    (w32_lstat cfg0 hardLinkHost (some "C:\\f".toList) (some stat.zero)).2.map
        (fun sb => sb.st_nlink) = some 1 ∧
    (w32_stat cfg0 hardLinkHost (some "C:\\f".toList) (some stat.zero)).1 = .ok () ∧
    (w32_stat cfg0 hardLinkHost (some "C:\\f".toList) (some stat.zero)).2.map
        (fun sb => sb.st_nlink) = some 1 ∧
    (w32_fstat cfg0 hardLinkHost 3 (some stat.zero)).1 = .ok () ∧
    (w32_fstat cfg0 hardLinkHost 3 (some stat.zero)).2.map (fun sb => sb.st_nlink)
      = some 2 := by
  decide

/-- C12: for a non-negative descriptor with a valid handle, `w32_fstat`
succeeds on a pipe-type handle with the fifo tag and on a character-type
handle with the char-device tag, in both cases with the record that holds
nothing but the read permission bits, the tag and `st_dev = st_rdev = 1`
(so owner-read is set, and no other answer of the host enters); on a remote
or unknown type (and on any type other than disk, character and pipe) it
returns -1 with `EBADF`. -/
theorem w32_fstat_by_file_type (cfg : Config) (host : Host) (fd : Int) (sb0 : stat)
    (handle : Nat) (hfd : 0 ≤ fd) (hh : host.get_osfhandle fd = some handle) :
    (host.GetFileType handle = FILE_TYPE_PIPE →
      w32_fstat cfg host fd (some sb0)
        = (.ok (), some { stat.zero with st_mode := 0o444 ||| S_IFIFO, st_dev := 1,
                                         st_rdev := 1 }) ∧
      (0o444 ||| S_IFIFO) &&& S_IFMT = S_IFIFO ∧ (0o444 ||| S_IFIFO) &&& S_IRUSR = S_IRUSR) ∧
    (host.GetFileType handle = FILE_TYPE_CHAR →
      w32_fstat cfg host fd (some sb0)
        = (.ok (), some { stat.zero with st_mode := 0o444 ||| S_IFCHR, st_dev := 1,
                                         st_rdev := 1 }) ∧
      (0o444 ||| S_IFCHR) &&& S_IFMT = S_IFCHR ∧ (0o444 ||| S_IFCHR) &&& S_IRUSR = S_IRUSR) ∧
    (host.GetFileType handle = FILE_TYPE_REMOTE ∨ host.GetFileType handle = FILE_TYPE_UNKNOWN ∨
        (host.GetFileType handle ≠ FILE_TYPE_DISK ∧ host.GetFileType handle ≠ FILE_TYPE_CHAR ∧
          host.GetFileType handle ≠ FILE_TYPE_PIPE) →
      (w32_fstat cfg host fd (some sb0)).1 = .error .EBADF) := by
  have hnot : ¬ fd < 0 := by omega
  refine ⟨?_, ?_, ?_⟩
  · intro ht
    refine ⟨?_, by decide, by decide⟩
    unfold w32_fstat
    simp only [hnot, if_false, hh, ht]
    rfl
  · intro ht
    refine ⟨?_, by decide, by decide⟩
    unfold w32_fstat
    simp only [hnot, if_false, hh, ht]
    rfl
  · intro ht
    have h3 : host.GetFileType handle ≠ FILE_TYPE_DISK ∧
        host.GetFileType handle ≠ FILE_TYPE_CHAR ∧
        host.GetFileType handle ≠ FILE_TYPE_PIPE := by
      rcases ht with h | h | h
      · rw [h]; decide
      · rw [h]; decide
      · exact h
    unfold w32_fstat
    simp only [hnot, if_false, hh, h3.1, h3.2.1, h3.2.2]

/-- Witness of the classification: the pipe behind descriptor 5. -/
theorem w32_fstat_by_file_type_witness :
    (0 : Int) ≤ 5 ∧ pipeHost.get_osfhandle 5 = some 100 ∧
    pipeHost.GetFileType 100 = FILE_TYPE_PIPE ∧
    w32_fstat cfg0 pipeHost 5 (some stat.zero)
      = (.ok (), some { stat.zero with st_mode := 0o444 ||| S_IFIFO, st_dev := 1,
                                       st_rdev := 1 }) :=
  ⟨by decide, by decide, by decide,
    ((w32_fstat_by_file_type cfg0 pipeHost 5 stat.zero 100 (by decide) (by decide)).1
      (by decide)).1⟩

/-- C13, as stated, fails: when the attribute lookups fail with "path not
found", `w32_readlink` returns -1 with `ENOTDIR`, which the claim does not
list. -/
theorem w32_readlink_ENOTDIR :
    pathNotFoundHost.GetFileAttributes "x".toList = .failed ERROR_PATH_NOT_FOUND ∧
    (w32_readlink pathNotFoundHost (some "x".toList) (some []) 64).1 = .error .ENOTDIR ∧
    ¬ (Errno.ENOTDIR = .EFAULT ∨ Errno.ENOTDIR = .EINVAL ∨ Errno.ENOTDIR = .ENOENT ∨
        Errno.ENOTDIR = .ENAMETOOLONG ∨ Errno.ENOTDIR = .EACCES ∨
        Errno.ENOTDIR = Errno.EIO) := by
  decide

/-- C13 (amended): whenever `w32_readlink` returns -1, errno is one of
`EFAULT`, `EINVAL`, `ENOENT`, `ENOTDIR`, `ENAMETOOLONG`, `EACCES`, `EIO`, for
every path, buffer, capacity and host. -/
theorem w32_readlink_errno_cases (host : Host) (path : Option CStr)
    (buf : Option (List Char)) (maxlen : Nat) (e : Errno)
    (h : (w32_readlink host path buf maxlen).1 = .error e) :
    e = .EFAULT ∨ e = .EINVAL ∨ e = .ENOENT ∨ e = .ENOTDIR ∨ e = .ENAMETOOLONG ∨
      e = .EACCES ∨ e = Errno.EIO := by
  unfold w32_readlink at h
  split at h
  · rename_i p b
    split at h
    · simp at h
      simp [← h]
    · simp at h
    · rename_i e1 b1 hr
      simp only [Except.error.injEq] at h
      subst h
      have := Readlink_error_cases host p .default maxlen e1 (by rw [hr])
      tauto
  · simp at h
    simp [← h]

/-- Witness of the error set: a missing file gives `ENOENT`. -/
theorem w32_readlink_errno_cases_witness :
    (w32_readlink emptyHost (some "x".toList) (some []) 64).1 = .error .ENOENT ∧
    (Errno.ENOENT = .EFAULT ∨ Errno.ENOENT = .EINVAL ∨ Errno.ENOENT = .ENOENT ∨
      Errno.ENOENT = .ENOTDIR ∨ Errno.ENOENT = .ENAMETOOLONG ∨ Errno.ENOENT = .EACCES ∨
      Errno.ENOENT = Errno.EIO) :=
  ⟨by decide, w32_readlink_errno_cases emptyHost (some "x".toList) (some []) 64 .ENOENT
    (by decide)⟩

/-- C14: `w32_symlink(T, P)` returns -1 with `ENAMETOOLONG` when `T` or `P`
is null or longer than `MAX_PATH`, and otherwise -1 with `EEXIST` when the
attribute lookup of `P` succeeds; in both cases the host after the call is
the host before it: nothing was saved. -/
theorem w32_symlink_rejects (cfg : Config) (host : Host) (name1 name2 : Option CStr) :
    ((name1 = none ∨ name2 = none ∨
        (∃ T, name1 = some T ∧ cfg.MAX_PATH < T.length) ∨
        (∃ P, name2 = some P ∧ cfg.MAX_PATH < P.length)) →
      w32_symlink cfg host name1 name2 = (.error .ENAMETOOLONG, host)) ∧
    (∀ T P a, name1 = some T → name2 = some P → T.length ≤ cfg.MAX_PATH →
      P.length ≤ cfg.MAX_PATH → host.GetFileAttributes P = .attrs a →
      w32_symlink cfg host name1 name2 = (.error .EEXIST, host)) := by
  constructor
  · intro h
    cases name1 with
    | none => cases name2 <;> rfl
    | some T =>
      cases name2 with
      | none => rfl
      | some P =>
        have hlong : T.length > cfg.MAX_PATH ∨ P.length > cfg.MAX_PATH := by
          rcases h with h | h | ⟨T1, h1, h2⟩ | ⟨P1, h1, h2⟩
          · cases h
          · cases h
          · cases h1; exact Or.inl h2
          · cases h1; exact Or.inr h2
        unfold w32_symlink
        simp only [hlong, if_true]
  · intro T P a h1 h2 hT hP ha
    subst h1 h2
    unfold w32_symlink
    simp only [ha]
    rw [if_neg (by omega)]

/-- Witness of the rejection: the link path `b` exists. -/
theorem w32_symlink_rejects_witness :
    linkToExistingHost.GetFileAttributes "b".toList = .attrs FILE_ATTRIBUTE_ARCHIVE ∧
    (w32_symlink cfg0 linkToExistingHost (some "t".toList) (some "b".toList)).1
      = .error .EEXIST ∧
    (w32_symlink cfg0 linkToExistingHost none (some "b".toList)).1 = .error .ENAMETOOLONG :=
  ⟨by decide,
    by rw [(w32_symlink_rejects cfg0 linkToExistingHost (some "t".toList)
      (some "b".toList)).2 "t".toList "b".toList FILE_ATTRIBUTE_ARCHIVE rfl rfl (by decide)
      (by decide) (by decide)],
    by rw [(w32_symlink_rejects cfg0 linkToExistingHost none (some "b".toList)).1
      (Or.inl rfl)]⟩

/-- C15, as stated, fails: for the UNC path `\\server`, one segment after
the leading double separator, with the enumeration lookup failing and the
metadata open succeeding, `Stat` returns `-ENOENT`. -/
theorem Stat_unc_one_segment_ENOENT :
    rootsHost.GetFullPathName "\\\\server".toList = some "\\\\server".toList ∧
    rootsHost.FindFirstFile "\\\\server".toList = none ∧
    rootsHost.OpenMetadata "\\\\server".toList = .infoFailed ∧
    (Stat cfg0 rootsHost (some "\\\\server".toList) (some stat.zero)).1 = .err .ENOENT := by
  decide

/-- C15 (amended): let a name pass the argument checks of `Stat` (not
empty, no bare drive, no wildcard marker) and let its absolute form, shorter
than the path ceiling, be a drive root `X:\` whose drive type is above 1, or a
UNC path that consists of the double separator, a server segment, a separator
and at most one further segment, with or without one closing separator. When
the enumeration lookup fails and the metadata open succeeds, `Stat` returns 0
and the mode carries the directory tag. -/
theorem Stat_root_directory (cfg : Config) (host : Host) (name full : CStr) (sb0 : stat)
    (h1 : charAt name 0 ≠ NUL) (h2 : ¬ (charAt name 1 = ':' ∧ charAt name 2 = NUL))
    (h3 : '?' ∉ name) (h4 : '*' ∉ name)
    (hfull : host.GetFullPathName name = some full)
    (hlen : full.length < cfg.WIN32_PATH_MAX)
    (hfind : host.FindFirstFile full = none)
    (hopen : host.OpenMetadata full ≠ .openFailed)
    (hform :
      (∃ x s, full = [x, ':', s] ∧ x ≠ NUL ∧ ISSLASH s = true ∧ 1 < host.GetDriveType full) ∨
      (∃ s1 s2 s3 server share tail, full = s1 :: s2 :: (server ++ s3 :: (share ++ tail)) ∧
        ISSLASH s1 = true ∧ ISSLASH s2 = true ∧ ISSLASH s3 = true ∧
        (∀ c ∈ server, ISSLASH c = false) ∧ (∀ c ∈ share, ISSLASH c = false) ∧
        (tail = [] ∨ ∃ s4, tail = [s4] ∧ ISSLASH s4 = true))) :
    ∃ sb, Stat cfg host (some name) (some sb0) = (.val 0, some sb) ∧
      sb.st_mode &&& S_IFMT = S_IFDIR := by
  rcases hform with ⟨x, s, hf, hx, hs, hd⟩ | ⟨s1, s2, s3, server, share, tail, hf, hs1, hs2, hs3,
    hsrv, hshr, htail⟩
  · refine Stat_of_root_lookup cfg host name full sb0 1 h1 h2 h3 h4 hfull hlen ?_ (by decide)
      hopen
    unfold Stat.lookup
    rw [hfind]
    simp only
    have hx1 : (x != NUL) = true := by simpa using hx
    have hr : Stat.isDriveRoot full = true := by
      subst hf
      simp [Stat.isDriveRoot, charAt, hx1, hs]
    rw [if_pos (by simp [hr, hd])]
  · refine Stat_of_root_lookup cfg host name full sb0 2 h1 h2 h3 h4 hfull hlen ?_ (by decide)
      hopen
    have hcolon : (s2 == ':') = false := by
      cases h : s2 == ':'
      · rfl
      · have : s2 = ':' := by simpa using h
        rw [this] at hs2
        exact absurd hs2 (by decide)
    have hnd : Stat.isDriveRoot full = false := by
      subst hf
      simp [Stat.isDriveRoot, charAt, hcolon]
    have hunc : Stat.isUNCRoot full = true := by
      subst hf
      unfold Stat.isUNCRoot
      simp only [List.drop_succ_cons, List.drop_zero]
      rw [strslash_skip server (share ++ tail) s3 hsrv hs3]
      simp only [Option.map_some', List.drop_succ_cons, List.drop_zero]
      rcases htail with ht | ⟨s4, ht, hs4⟩
      · subst ht
        rw [List.append_nil, strslash_none share hshr]
      · subst ht
        rw [strslash_skip share [] s4 hshr hs4]
        simp [charAt]
    unfold Stat.lookup
    rw [hfind]
    simp only
    rw [if_neg (by simp [hnd]), if_pos (by subst hf; simp [charAt, hs1, hs2]), if_pos hunc]

/-- Witness of the roots: `\\server\share` on a host where the enumeration
finds nothing and the metadata open succeeds. -/
theorem Stat_root_directory_witness :
    rootsHost.FindFirstFile "\\\\server\\share".toList = none ∧
    ∃ sb, Stat cfg0 rootsHost (some "\\\\server\\share".toList) (some stat.zero)
        = (.val 0, some sb) ∧
      sb.st_mode &&& S_IFMT = S_IFDIR :=
  ⟨by decide,
    Stat_root_directory cfg0 rootsHost "\\\\server\\share".toList "\\\\server\\share".toList
      stat.zero (by decide) (by decide) (by decide) (by decide) (by decide) (by decide)
      (by decide) (by decide)
      (Or.inr ⟨'\\', '\\', '\\', "server".toList, "share".toList, [], by decide, by decide,
        by decide, by decide, by decide, by decide, Or.inl rfl⟩)⟩

/-- C16 (the code at the failing input): `C:\old` is a plain-text marker
file whose target bytes `abc` are not followed by a NUL. `Readlink` returns 3
and the buffer holds `abcold`: the cell at index 3 is the `o` left from the
path, not a NUL. For the marker file `m` with the bytes `abcd` and capacity 4
it returns 4, the capacity itself, and the buffer holds no NUL at all. -/
theorem Readlink_marker_not_terminated :
    markerHost.GetFileAttributes "C:\\old".toList = .attrs FILE_ATTRIBUTE_SYSTEM ∧
    markerHost.CreateFile_read "C:\\old".toList
      = some { content := "!<symlink>abc".toList, headerReadOk := true, bodyReadOk := true } ∧
    (Readlink markerHost "C:\\old".toList .default 64).1 = .val 3 ∧
    (Readlink markerHost "C:\\old".toList .default 64).2.getD 3 NUL = 'o' ∧
    cstr (Readlink markerHost "C:\\old".toList .default 64).2 = "abcold".toList ∧
    (Readlink markerHost "m".toList .default 4).1 = .val 4 ∧
    (Readlink markerHost "m".toList .default 4).2 = "abcd".toList := by
  decide

/-- C17: let every candidate of a non-empty candidate set (its last
suffix is `last`) overflow the capacity or fail its attribute lookup, the
candidate being the path, cut to `maxlen - 1` characters when it is longer,
followed by the suffix. Then `Readlink` returns the negated code of the last
candidate's failure: `ENAMETOOLONG` when it overflows, and otherwise the code
mapped from the host's error, which is `EACCES` for access-denied and
sharing-violation, `ENOTDIR` for path-not-found, `ENOENT` for file-not-found
and `EIO` for anything else. -/
theorem Readlink_last_error_wins (host : Host) (path : CStr) (sfx : Suffixes) (maxlen : Nat)
    (init : List CStr) (last : CStr)
    (htable : sfx.resolve = init ++ [last])
    (hn : NUL ∉ path) (hsn : ∀ s ∈ init ++ [last], NUL ∉ s)
    (hfail : ∀ s ∈ init ++ [last],
      maxlen ≤ (path.take (maxlen - 1)).length + s.length ∨
      ∃ rc, host.GetFileAttributes (path.take (maxlen - 1) ++ s) = .failed rc) :
    (maxlen ≤ (path.take (maxlen - 1)).length + last.length →
      (Readlink host path sfx maxlen).1 = .err .ENAMETOOLONG) ∧
    (∀ rc, (path.take (maxlen - 1)).length + last.length < maxlen →
      host.GetFileAttributes (path.take (maxlen - 1) ++ last) = .failed rc →
      (Readlink host path sfx maxlen).1 = .err (Readlink.lastError rc)) ∧
    (Readlink.lastError ERROR_ACCESS_DENIED = .EACCES ∧
      Readlink.lastError ERROR_SHARING_VIOLATION = .EACCES ∧
      Readlink.lastError ERROR_PATH_NOT_FOUND = .ENOTDIR ∧
      Readlink.lastError ERROR_FILE_NOT_FOUND = .ENOENT ∧
      ∀ rc, rc ≠ ERROR_ACCESS_DENIED → rc ≠ ERROR_SHARING_VIOLATION →
        rc ≠ ERROR_PATH_NOT_FOUND → rc ≠ ERROR_FILE_NOT_FOUND →
        Readlink.lastError rc = Errno.EIO) := by
  have hb : NUL ∉ path.take (maxlen - 1) := fun h => hn (List.mem_of_mem_take h)
  have hl : NUL ∉ last := hsn last (by simp)
  have hloop := loop_all_fail host path (path.take (maxlen - 1)) last maxlen hb hl
    init (.err .ENOENT)
    (List.replicate (maxlen - (path.take (maxlen - 1)).length) NUL) (by simp)
    (fun s hs => hsn s (by simp [hs])) (fun s hs => hfail s (by simp [hs]))
  rw [← primeBuffer_take, ← strlen_primed_take path maxlen hn, ← htable] at hloop
  have hres : ∀ e, (Readlink.loop host path maxlen (strlen (primeBuffer path maxlen))
      sfx.resolve (.err .ENOENT) (primeBuffer path maxlen)).1 = .err e →
      (Readlink host path sfx maxlen).1 = .err e := by
    intro e he
    unfold Readlink
    simp only [he, Ret.isPos]
    simp [he]
  refine ⟨fun ho => hres _ (hloop.1 ?_), fun rc hfit ha => hres _ (hloop.2 rc ?_ ha), ?_⟩
  · rw [strlen_primed_take path maxlen hn]
    exact ho
  · rw [strlen_primed_take path maxlen hn]
    exact hfit
  · refine ⟨by decide, by decide, by decide, by decide, ?_⟩
    intro rc h1 h2 h3 h4
    unfold Readlink.lastError
    rw [if_neg (by rintro (h | h); exact h1 h; exact h2 h), if_neg h3, if_neg h4]

/-- Witness of the last error: the default candidates of `x`, both failing
with "path not found". -/
theorem Readlink_last_error_wins_witness :
    pathNotFoundHost.GetFileAttributes "x.lnk".toList = .failed ERROR_PATH_NOT_FOUND ∧
    (Readlink pathNotFoundHost "x".toList .default 64).1 = .err .ENOTDIR :=
  ⟨by decide,
    (Readlink_last_error_wins pathNotFoundHost "x".toList .default 64 [[]] ".lnk".toList rfl
      (by decide) (by decide)
      (by
        intro s _
        exact Or.inr ⟨ERROR_PATH_NOT_FOUND, rfl⟩)).2.1 ERROR_PATH_NOT_FOUND (by decide)
      (by decide)⟩

/-- C18 (the code at the failing input): `C:\flink` is a native symbolic
link. `ReadReparse` opens it, decodes the target and returns 0 without
reaching `CloseHandle`: one handle stays open. -/
theorem ReadReparse_leaves_handle_open :
    (ReadReparse fileSymlinkHost "C:\\flink".toList (primeBuffer "C:\\flink".toList 64) 64).1
      = 0 ∧
    ReadReparse.handleEvents fileSymlinkHost "C:\\flink".toList = [.opened] ∧
    HandleEvent.balance (ReadReparse.handleEvents fileSymlinkHost "C:\\flink".toList) = 1 ∧
    (Readlink fileSymlinkHost "C:\\flink".toList .default 64).1 = .val 18 := by
  decide

/-- C19 (the code at the failing input): the metadata open of `b` succeeds
and `GetFileInformationByHandle` fails; `w32_lstat`, which does not clear the
record, succeeds twice on `b` with records that differ in `st_ino` (7, left
from the caller's buffer, against the path hash 1), while `w32_stat`, which
clears the record first, yields the same record for both buffers. -/
theorem w32_lstat_keeps_prior_ino :
    linkToExistingHost.OpenMetadata "b".toList = .infoFailed ∧
    (w32_lstat cfg0 linkToExistingHost (some "b".toList) (some stat.zero)).1 = .ok () ∧
    (w32_lstat cfg0 linkToExistingHost (some "b".toList)
      (some { stat.zero with st_ino := 7 })).1 = .ok () ∧
    (w32_lstat cfg0 linkToExistingHost (some "b".toList) (some stat.zero)).2.map
        (fun sb => sb.st_ino) = some 1 ∧
    (w32_lstat cfg0 linkToExistingHost (some "b".toList)
      (some { stat.zero with st_ino := 7 })).2.map (fun sb => sb.st_ino) = some 7 ∧
    w32_lstat cfg0 linkToExistingHost (some "b".toList) (some stat.zero)
      ≠ w32_lstat cfg0 linkToExistingHost (some "b".toList)
          (some { stat.zero with st_ino := 7 }) ∧
    w32_stat cfg0 linkToExistingHost (some "b".toList) (some stat.zero)
      = w32_stat cfg0 linkToExistingHost (some "b".toList)
          (some { stat.zero with st_ino := 7 }) := by
  decide

/-- C20, as stated, fails: on a host that answers "invalid name" to a name
with a wildcard marker, `w32_stat("a*")` returns -1 with `EIO`, the error of
the link resolver, which `w32_stat` runs first. -/
theorem w32_stat_wildcard_resolver_error :
    invalidNameHost.GetFileAttributes "a*".toList = .failed ERROR_INVALID_NAME ∧
    '*' ∈ "a*".toList ∧
    (Readlink invalidNameHost "a*".toList .default cfg0.WIN32_PATH_MAX).1 = .err Errno.EIO ∧
    (w32_stat cfg0 invalidNameHost (some "a*".toList) (some stat.zero)).1
      = .error Errno.EIO := by
  decide

/-- C20 (amended): when the path is the empty string, a bare drive notation
`X:`, or contains `?` or `*`, `w32_lstat` returns -1 with `ENOENT` on every
host and leaves the record as it was; `w32_stat` returns -1 with `ENOENT`
when the link resolver answers 0 (not a link) for the path, and -1 with the
resolver's error when it answers with one. -/
theorem stat_lstat_reject_degenerate (cfg : Config) (host : Host) (path : CStr) (sb0 : stat)
    (h : path = [] ∨ (∃ x, path = [x, ':']) ∨ '?' ∈ path ∨ '*' ∈ path) :
    w32_lstat cfg host (some path) (some sb0) = (.error .ENOENT, some sb0) ∧
    ((Readlink host path .default cfg.WIN32_PATH_MAX).1 = .val 0 →
      w32_stat cfg host (some path) (some sb0) = (.error .ENOENT, some stat.zero)) ∧
    (∀ e, (Readlink host path .default cfg.WIN32_PATH_MAX).1 = .err e →
      w32_stat cfg host (some path) (some sb0) = (.error e, some stat.zero)) := by
  refine ⟨?_, ?_, ?_⟩
  · unfold w32_lstat
    simp only [Stat_rejects cfg host path sb0 h]
    rfl
  · intro hr
    rw [stat_eq_lstat_of_effective, hr]
    have h0 : (Ret.val 0).isPos = false := rfl
    simp only [h0, Bool.false_eq_true, if_false]
    unfold w32_lstat
    simp only [Stat_rejects cfg host path stat.zero h]
    rfl
  · intro e hr
    rw [stat_eq_lstat_of_effective, hr]

/-- Witness of the rejections: the path `a*` on a host where no file exists. -/
theorem stat_lstat_reject_degenerate_witness :
    '*' ∈ "a*".toList ∧
    w32_lstat cfg0 emptyHost (some "a*".toList) (some stat.zero)
      = (.error .ENOENT, some stat.zero) ∧
    w32_stat cfg0 emptyHost (some "a*".toList) (some stat.zero)
      = (.error .ENOENT, some stat.zero) :=
  ⟨by decide,
    (stat_lstat_reject_degenerate cfg0 emptyHost "a*".toList stat.zero
      (Or.inr (Or.inr (Or.inr (by decide))))).1,
    (stat_lstat_reject_degenerate cfg0 emptyHost "a*".toList stat.zero
      (Or.inr (Or.inr (Or.inr (by decide))))).2.2 .ENOENT (by decide)⟩

/-- C21: `w32_stat(NULL, sb)` returns -1 with `EFAULT` and the record is
what it was; `w32_stat(path, NULL)` returns -1 with `EFAULT`; in both cases
the outcome is the same on every host and under every configuration, no
answer of the host entering it. -/
theorem w32_stat_null_EFAULT (cfg : Config) (host : Host) :
    (∀ sb : Option stat, w32_stat cfg host none sb = (.error .EFAULT, sb)) ∧
    (∀ path : Option CStr, w32_stat cfg host path none = (.error .EFAULT, none)) ∧
    (∀ (cfg1 : Config) (host1 : Host) (sb : Option stat),
      w32_stat cfg1 host1 none sb = w32_stat cfg host none sb) ∧
    (∀ (cfg1 : Config) (host1 : Host) (path : Option CStr),
      w32_stat cfg1 host1 path none = w32_stat cfg host path none) := by
  have h1 : ∀ (c : Config) (h : Host) (sb : Option stat),
      w32_stat c h none sb = (.error .EFAULT, sb) := by
    intro c h sb
    cases sb <;> rfl
  have h2 : ∀ (c : Config) (h : Host) (path : Option CStr),
      w32_stat c h path none = (.error .EFAULT, none) := by
    intro c h path
    cases path <;> rfl
  exact ⟨h1 cfg host, h2 cfg host, fun c h sb => by rw [h1, h1],
    fun c h path => by rw [h2, h2]⟩

/-- C22 (the code at the failing input): the attribute lookup of the
candidate `x.lnk` succeeds on both hosts, with the same attributes, and the
file cannot be opened; the hosts differ only in the error of the earlier
candidate `x`. `Readlink` returns that earlier error: `EACCES` on one host,
`ENOTDIR` on the other. -/
theorem Readlink_keeps_earlier_error :
    (lockedLnkHost ERROR_ACCESS_DENIED).GetFileAttributes "x.lnk".toList
      = .attrs FILE_ATTRIBUTE_ARCHIVE ∧
    (lockedLnkHost ERROR_PATH_NOT_FOUND).GetFileAttributes "x.lnk".toList
      = .attrs FILE_ATTRIBUTE_ARCHIVE ∧
    (lockedLnkHost ERROR_ACCESS_DENIED).CreateFile_read "x.lnk".toList = none ∧
    (lockedLnkHost ERROR_PATH_NOT_FOUND).CreateFile_read "x.lnk".toList = none ∧
    (Readlink (lockedLnkHost ERROR_ACCESS_DENIED) "x".toList .default 64).1 = .err .EACCES ∧
    (Readlink (lockedLnkHost ERROR_PATH_NOT_FOUND) "x".toList .default 64).1
      = .err .ENOTDIR := by
  decide

/-- C23: a candidate whose attribute lookup succeeds with the directory,
compressed, device or encrypted flag set makes `Readlink` return 0, whatever
the other flags, the extension and the content are. The candidates before it
overflow the capacity or fail the attribute lookup; the buffer is left with
the name of the candidate; and the whole result is that of every host with
the same attribute lookup, so that nothing is opened, read or decoded. -/
theorem Readlink_not_link_by_attributes (host : Host) (path : CStr) (sfx : Suffixes)
    (maxlen : Nat) (init : List CStr) (s : CStr) (rest : List CStr) (a : Nat)
    (hn : NUL ∉ path) (hs : ∀ x ∈ sfx.resolve, NUL ∉ x)
    (hsfx : sfx.resolve = init ++ s :: rest)
    (hinit : ∀ x ∈ init, maxlen ≤ (path.take (maxlen - 1)).length + x.length ∨
      ∃ rc, host.GetFileAttributes (path.take (maxlen - 1) ++ x) = .failed rc)
    (hfit : (path.take (maxlen - 1)).length + s.length < maxlen)
    (ha : host.GetFileAttributes (path.take (maxlen - 1) ++ s) = .attrs a)
    (hf : (hasFlag a FILE_ATTRIBUTE_DIRECTORY || hasFlag a FILE_ATTRIBUTE_COMPRESSED ||
      hasFlag a FILE_ATTRIBUTE_DEVICE || hasFlag a FILE_ATTRIBUTE_ENCRYPTED) = true) :
    (Readlink host path sfx maxlen).1 = .val 0 ∧
    cstr (Readlink host path sfx maxlen).2 = path.take (maxlen - 1) ++ s ∧
    ∀ host1 : Host, host1.GetFileAttributes = host.GetFileAttributes →
      Readlink host1 path sfx maxlen = Readlink host path sfx maxlen := by
  have hb : NUL ∉ path.take (maxlen - 1) := fun h => hn (List.mem_of_mem_take h)
  have hsn : NUL ∉ s := hs s (by rw [hsfx]; simp)
  have hin : ∀ x ∈ init, NUL ∉ x := fun x hx => hs x (by rw [hsfx]; simp [hx])
  have hbs : NUL ∉ path.take (maxlen - 1) ++ s := by
    intro hm
    rcases List.mem_append.1 hm with h | h
    · exact hb h
    · exact hsn h
  obtain ⟨ret1, r1, hr1, hskip⟩ :=
    loop_skip_failed host path (path.take (maxlen - 1)) maxlen hb (s :: rest) init
      (.err .ENOENT) (List.replicate (maxlen - (path.take (maxlen - 1)).length) NUL)
      (by simp) hin hinit
  have hall : ∀ host1 : Host, host1.GetFileAttributes = host.GetFileAttributes →
      Readlink host1 path sfx maxlen
        = (.val 0, (path.take (maxlen - 1) ++ s) ++ NUL :: r1.drop (s.length + 1)) := by
    intro host1 hh
    unfold Readlink
    simp only [strlen_primed_take path maxlen hn]
    rw [primeBuffer_take, hsfx, hskip host1 hh,
      loop_step_found host1 path _ s r1 maxlen rest ret1 a hbs hfit hr1 (by rw [hh]; exact ha),
      classify_not_link host1 path maxlen a ret1 _ hf]
    simp [Ret.isPos]
  refine ⟨?_, ?_, ?_⟩
  · rw [hall host rfl]
  · rw [hall host rfl]
    exact cstr_append_NUL _ _ hbs
  · intro host1 hh
    rw [hall host1 hh, hall host rfl]

/-- Witness of the attribute rule: on `dirLnkHost` the name `d` is not found
and `d.lnk` is a directory with the reparse-point flag. -/
theorem Readlink_not_link_by_attributes_witness :
    (Readlink dirLnkHost "d".toList .default 64).1 = .val 0 ∧
    cstr (Readlink dirLnkHost "d".toList .default 64).2 = "d.lnk".toList :=
  have h := Readlink_not_link_by_attributes dirLnkHost "d".toList .default 64 [[]]
    ".lnk".toList [] (FILE_ATTRIBUTE_DIRECTORY ||| FILE_ATTRIBUTE_REPARSE_POINT)
    (by decide) (by decide) (by decide)
    (fun x hx => Or.inr ⟨ERROR_FILE_NOT_FOUND, by rw [List.mem_singleton.1 hx]; decide⟩)
    (by decide) (by decide) (by decide)
  ⟨h.1, h.2.1⟩

/-- C24 (the code at the failing input): `C:\x` does not exist and the
composed candidate `C:\x.lnk` is a native symbolic link to `C:\t`. `Readlink`
reads the reparse data of the original path `C:\x`, which cannot be opened,
and returns `-EIO`; the reparse data of the candidate itself decodes (as
`Readlink` on `C:\x.lnk` shows, whose literal candidate is the path). -/
theorem Readlink_reparse_reads_original_path :
    reparseLnkHost.GetFileAttributes "C:\\x".toList = .failed ERROR_FILE_NOT_FOUND ∧
    reparseLnkHost.GetFileAttributes "C:\\x.lnk".toList
      = .attrs (FILE_ATTRIBUTE_REPARSE_POINT ||| FILE_ATTRIBUTE_ARCHIVE) ∧
    (ReadReparse reparseLnkHost "C:\\x.lnk".toList (primeBuffer "C:\\x".toList 64) 64).1 = 0 ∧
    cstr (ReadReparse reparseLnkHost "C:\\x.lnk".toList (primeBuffer "C:\\x".toList 64) 64).2
      = "C:\\t".toList ∧
    (ReadReparse reparseLnkHost "C:\\x".toList (primeBuffer "C:\\x".toList 64) 64).1 = -1 ∧
    (Readlink reparseLnkHost "C:\\x".toList .default 64).1 = .err Errno.EIO ∧
    (Readlink reparseLnkHost "C:\\x.lnk".toList .default 64).1 = .val 4 := by
  decide

/-- C25: the permission bits of the mode `ApplyAttributes` stores in the
record. The owner bits are read, plus write unless the read-only flag is
set, plus execute when the type is directory or `IsExec` holds for the name;
the group bits are the owner bits shifted right by 3, and zero for a system
file; the other bits are the owner bits shifted right by 6, and zero for a
system or a hidden file; with the read-only flag set no write bit is set.
The mode stored does not depend on what the record held. -/
theorem ApplyAttributes_permission_bits (cfg : Config) (host : Host) (sb : stat) (a : Nat)
    (name : Option CStr) :
    (ApplyAttributes cfg host sb a name).st_mode &&& 0o700
      = ((if hasFlag a FILE_ATTRIBUTE_READONLY then S_IREAD else S_IREAD ||| S_IWRITE) |||
          (if (ApplyAttributes cfg host sb a name).st_mode &&& S_IFMT = S_IFDIR ∨
              (match name with
                | some n => IsExec host n
                | none => false) = true then S_IEXEC else 0)) ∧
    (ApplyAttributes cfg host sb a name).st_mode &&& 0o070
      = (if hasFlag a FILE_ATTRIBUTE_SYSTEM then 0
         else ((ApplyAttributes cfg host sb a name).st_mode &&& 0o700) >>> 3) ∧
    (ApplyAttributes cfg host sb a name).st_mode &&& 0o007
      = (if hasFlag a FILE_ATTRIBUTE_SYSTEM ∨ hasFlag a FILE_ATTRIBUTE_HIDDEN then 0
         else ((ApplyAttributes cfg host sb a name).st_mode &&& 0o700) >>> 6) ∧
    (hasFlag a FILE_ATTRIBUTE_READONLY = true →
      (ApplyAttributes cfg host sb a name).st_mode &&& 0o222 = 0) ∧
    (∀ sb1 : stat,
      (ApplyAttributes cfg host sb1 a name).st_mode
        = (ApplyAttributes cfg host sb a name).st_mode) := by
  have hm : ∀ s : stat, (ApplyAttributes cfg host s a name).st_mode
      = ApplyAttributes.mode cfg host a name := fun _ => rfl
  refine ⟨?_, ?_, ?_, ?_, fun sb1 => by rw [hm, hm]⟩ <;> rw [hm]
  all_goals
    try rw [mode_tag]
    unfold ApplyAttributes.mode
    generalize (match name with
      | some n => IsExec host n
      | none => false) = x
    rcases typeBits_cases cfg host a name with h | h | h <;> rw [h] <;>
      cases hasFlag a FILE_ATTRIBUTE_READONLY <;> cases hasFlag a FILE_ATTRIBUTE_SYSTEM <;>
      cases hasFlag a FILE_ATTRIBUTE_HIDDEN <;> cases x <;> decide

/-- Witness of the permission bits: a read-only hidden file, over a record
that held the mode 0o777. -/
theorem ApplyAttributes_permission_bits_witness :
    hasFlag (FILE_ATTRIBUTE_READONLY ||| FILE_ATTRIBUTE_HIDDEN) FILE_ATTRIBUTE_READONLY = true ∧
    (ApplyAttributes cfg0 emptyHost { stat.zero with st_mode := 0o777 }
        (FILE_ATTRIBUTE_READONLY ||| FILE_ATTRIBUTE_HIDDEN) none).st_mode &&& 0o222 = 0 ∧
    (ApplyAttributes cfg0 emptyHost { stat.zero with st_mode := 0o777 }
        (FILE_ATTRIBUTE_READONLY ||| FILE_ATTRIBUTE_HIDDEN) none).st_mode &&& 0o777 = 0o440 :=
  ⟨by decide,
    (ApplyAttributes_permission_bits cfg0 emptyHost { stat.zero with st_mode := 0o777 }
      (FILE_ATTRIBUTE_READONLY ||| FILE_ATTRIBUTE_HIDDEN) none).2.2.2.1 (by decide),
    by decide⟩

/-- C26: the file-type tag of the mode `ApplyAttributes` stores in the
record. Under the mask `S_IFMT` the stored mode is the directory tag when the
name is a root or the directory flag is set, whatever the other flags are;
otherwise the symlink tag when the reparse-point flag is set or the link
probe of the literal name is positive; otherwise the regular tag. The three
tags are distinct, so the mode carries exactly one of them, whatever the
record held. A name without NUL is a root exactly when it is empty or one
separator, after an optional drive designator. -/
theorem ApplyAttributes_type_tag (cfg : Config) (host : Host) (sb : stat) (a : Nat)
    (name : Option CStr) :
    ((ApplyAttributes cfg host sb a name).st_mode &&& S_IFMT
      = if ((match name with
              | some n => ApplyAttributes.isRoot (ApplyAttributes.stripDrive n)
              | none => false) || hasFlag a FILE_ATTRIBUTE_DIRECTORY) = true then S_IFDIR
        else if (hasFlag a FILE_ATTRIBUTE_REPARSE_POINT ||
            (match name with
              | some n => (Readlink host n .null cfg.WIN32_PATH_MAX).1.isPos
              | none => false)) = true then S_IFLNK
        else S_IFREG) ∧
    ((ApplyAttributes cfg host sb a name).st_mode &&& S_IFMT = S_IFDIR ∨
      (ApplyAttributes cfg host sb a name).st_mode &&& S_IFMT = S_IFLNK ∨
      (ApplyAttributes cfg host sb a name).st_mode &&& S_IFMT = S_IFREG) ∧
    (S_IFDIR ≠ S_IFLNK ∧ S_IFDIR ≠ S_IFREG ∧ S_IFLNK ≠ S_IFREG) ∧
    (∀ n, name = some n →
      (n = [] ∨ (∃ s, ISSLASH s = true ∧ n = [s]) ∨ (∃ x, n = [x, ':']) ∨
        (∃ x s, ISSLASH s = true ∧ n = [x, ':', s])) →
      (ApplyAttributes cfg host sb a name).st_mode &&& S_IFMT = S_IFDIR) ∧
    (∀ n, name = some n → NUL ∉ n →
      (ApplyAttributes.isRoot (ApplyAttributes.stripDrive n) = true ↔
        (n = [] ∨ (∃ s, ISSLASH s = true ∧ n = [s]) ∨ (∃ x, n = [x, ':']) ∨
          (∃ x s, ISSLASH s = true ∧ n = [x, ':', s])))) := by
  have htag : (ApplyAttributes cfg host sb a name).st_mode &&& S_IFMT
      = if ((match name with
              | some n => ApplyAttributes.isRoot (ApplyAttributes.stripDrive n)
              | none => false) || hasFlag a FILE_ATTRIBUTE_DIRECTORY) = true then S_IFDIR
        else if (hasFlag a FILE_ATTRIBUTE_REPARSE_POINT ||
            (match name with
              | some n => (Readlink host n .null cfg.WIN32_PATH_MAX).1.isPos
              | none => false)) = true then S_IFLNK
        else S_IFREG := by
    rw [show (ApplyAttributes cfg host sb a name).st_mode
      = ApplyAttributes.mode cfg host a name from rfl, mode_tag]
    unfold ApplyAttributes.typeBits
    generalize (match name with
      | some n => ApplyAttributes.isRoot (ApplyAttributes.stripDrive n)
      | none => false) = x
    generalize (hasFlag a FILE_ATTRIBUTE_REPARSE_POINT ||
      (match name with
        | some n => (Readlink host n .null cfg.WIN32_PATH_MAX).1.isPos
        | none => false)) = y
    cases x <;> cases hasFlag a FILE_ATTRIBUTE_DIRECTORY <;> cases y <;> decide
  refine ⟨htag, ?_, by decide, ?_, ?_⟩
  · rw [htag]
    split_ifs
    · exact Or.inl rfl
    · exact Or.inr (Or.inl rfl)
    · exact Or.inr (Or.inr rfl)
  · intro n hname hshape
    have hroot := isRoot_of_shape n hshape
    rw [htag, hname]
    simp [hroot]
  · intro n _ hn
    exact isRoot_stripDrive_iff n hn

/-- Witness of the type tag: the drive root `C:\` with the archive flag
alone carries the directory tag, over a record that held the symlink tag. -/
theorem ApplyAttributes_type_tag_witness :
    (ApplyAttributes cfg0 emptyHost { stat.zero with st_mode := S_IFLNK }
        FILE_ATTRIBUTE_ARCHIVE (some "C:\\".toList)).st_mode &&& S_IFMT = S_IFDIR ∧
    hasFlag FILE_ATTRIBUTE_ARCHIVE FILE_ATTRIBUTE_DIRECTORY = false :=
  ⟨(ApplyAttributes_type_tag cfg0 emptyHost { stat.zero with st_mode := S_IFLNK }
      FILE_ATTRIBUTE_ARCHIVE (some "C:\\".toList)).2.2.2.1 _ rfl
      (Or.inr (Or.inr (Or.inr ⟨'C', '\\', by decide, by decide⟩))),
    by decide⟩

/-- C27: the executable heuristic. When the text from the last `.` of the
name equals, ignoring case, an entry of the allow-list, `IsExec` is true
whatever the host says; when it equals an entry of the deny-list, `IsExec`
is false whatever the host says; otherwise, and for a name without `.`, it
is true exactly when the drive is fixed and the binary-format classifier
succeeds. The text `strrchr` returns starts at the last `.` of the name, and
there is none exactly when the name holds no `.`. -/
theorem IsExec_by_extension (host : Host) (name : CStr) :
    (∀ dot, strrchr name '.' = some dot →
      (∃ e ∈ exec_assume, dot.map lowerAscii = e.map lowerAscii) →
      IsExec host name = true) ∧
    (∀ dot, strrchr name '.' = some dot →
      (∃ e ∈ exec_exclude, dot.map lowerAscii = e.map lowerAscii) →
      IsExec host name = false) ∧
    ((∀ dot, strrchr name '.' = some dot →
        ∀ e ∈ exec_assume ++ exec_exclude, dot.map lowerAscii ≠ e.map lowerAscii) →
      IsExec host name = (host.GetDriveType name == DRIVE_FIXED && host.GetBinaryType name)) ∧
    (∀ dot, strrchr name '.' = some dot →
      ∃ pre rest, name = pre ++ '.' :: rest ∧ dot = '.' :: rest ∧ '.' ∉ rest) ∧
    (strrchr name '.' = none ↔ '.' ∉ name) := by
  refine ⟨?_, ?_, ?_, fun dot h => strrchr_some name '.' dot h, strrchr_none_iff name '.'⟩
  · intro dot hdot ⟨e, he, heq⟩
    unfold IsExec
    rw [hdot]
    have : exec_assume.any (fun e => WIN32_STRICMP_eq dot e) = true :=
      List.any_eq_true.2 ⟨e, he, by simp [WIN32_STRICMP_eq, heq]⟩
    simp only [this, if_true]
  · intro dot hdot ⟨e, he, heq⟩
    unfold IsExec
    rw [hdot]
    have h1 : exec_assume.any (fun e => WIN32_STRICMP_eq dot e) = false := by
      rw [Bool.eq_false_iff]
      intro h
      obtain ⟨e1, he1, h1⟩ := List.any_eq_true.1 h
      simp only [WIN32_STRICMP_eq, beq_iff_eq] at h1
      exact exec_tables_disjoint e1 he1 e he (h1.symm.trans heq)
    have h2 : exec_exclude.any (fun e => WIN32_STRICMP_eq dot e) = true :=
      List.any_eq_true.2 ⟨e, he, by simp [WIN32_STRICMP_eq, heq]⟩
    simp [h1, h2]
  · intro hno
    unfold IsExec
    cases hdot : strrchr name '.' with
    | none => rfl
    | some dot =>
      have h1 : exec_assume.any (fun e => WIN32_STRICMP_eq dot e) = false := by
        rw [Bool.eq_false_iff]
        intro h
        obtain ⟨e1, he1, h1⟩ := List.any_eq_true.1 h
        simp only [WIN32_STRICMP_eq, beq_iff_eq] at h1
        exact hno dot hdot e1 (List.mem_append_left _ he1) h1
      have h2 : exec_exclude.any (fun e => WIN32_STRICMP_eq dot e) = false := by
        rw [Bool.eq_false_iff]
        intro h
        obtain ⟨e1, he1, h1⟩ := List.any_eq_true.1 h
        simp only [WIN32_STRICMP_eq, beq_iff_eq] at h1
        exact hno dot hdot e1 (List.mem_append_right _ he1) h1
      simp [h1, h2]

/-- Witness of the executable heuristic: `a.EXE` is executable on a host
whose classifier rejects everything. -/
theorem IsExec_by_extension_witness :
    strrchr "a.EXE".toList '.' = some ".EXE".toList ∧
    emptyHost.GetBinaryType "a.EXE".toList = false ∧
    IsExec emptyHost "a.EXE".toList = true :=
  ⟨by decide, by decide,
    (IsExec_by_extension emptyHost "a.EXE".toList).1 ".EXE".toList (by decide)
      ⟨".exe".toList, by decide, by decide⟩⟩

/-- C28, as stated, fails: the device id is the zero-based index of the drive
letter. `C:\f` reports 2 where the one-based index of `C` is 3, the root of
drive `a` reports 0, and a path that starts with a separator reports
4294967295, the conversion of -1 to `dev_t`, not zero. -/
theorem Stat_device_id_not_one_based :
    Stat.drive "C:\\f".toList = 3 ∧
    (Stat cfg0 hardLinkHost (some "C:\\f".toList) (some stat.zero)).1 = .val 0 ∧
    (Stat cfg0 hardLinkHost (some "C:\\f".toList) (some stat.zero)).2.map
      (fun sb => (sb.st_dev, sb.st_rdev)) = some (2, 2) ∧
    (Stat cfg0 rootsHost (some "a:\\".toList) (some stat.zero)).1 = .val 0 ∧
    (Stat cfg0 rootsHost (some "a:\\".toList) (some stat.zero)).2.map
      (fun sb => (sb.st_dev, sb.st_rdev)) = some (0, 0) ∧
    Stat.drive "\\\\server\\share".toList = 0 ∧
    (Stat cfg0 rootsHost (some "\\\\server\\share".toList) (some stat.zero)).1 = .val 0 ∧
    (Stat cfg0 rootsHost (some "\\\\server\\share".toList) (some stat.zero)).2.map
      (fun sb => (sb.st_dev, sb.st_rdev)) = some (4294967295, 4294967295) := by
  decide

/-- C28, amended: after every successful `Stat` the fields `st_dev` and
`st_rdev` are equal, and both are the drive number of the canonical path
minus one, converted to the 32-bit unsigned `dev_t`: the zero-based index of
its drive letter (A or a gives 0, B or b gives 1, and so on), and 4294967295
(the conversion of -1) when the canonical path starts with a separator. The
value is always within the range of `dev_t`. -/
theorem Stat_device_id (cfg : Config) (host : Host) (name : CStr) (sb0 sb : stat) (n : Nat)
    (h : Stat cfg host (some name) (some sb0) = (.val n, some sb)) :
    ∃ full, host.GetFullPathName name = some full ∧
      sb.st_dev = sb.st_rdev ∧
      sb.st_dev = dev_t.ofInt (Stat.drive full - 1) ∧
      sb.st_dev = (Stat.drive full - 1) % 2 ^ 32 ∧
      (0 ≤ sb.st_dev ∧ sb.st_dev < 2 ^ 32) ∧
      (∀ k, k < 26 →
        (charAt full 0 = Char.ofNat ('A'.toNat + k) ∨
          charAt full 0 = Char.ofNat ('a'.toNat + k)) →
        sb.st_dev = (k : Int)) ∧
      (ISSLASH (charAt full 0) = true → sb.st_dev = 4294967295) := by
  obtain ⟨full, root, fb, hfull, _, hsb⟩ := Stat_val_inv cfg host name sb0 sb n h
  have hd := assign_dev cfg host full root fb sb0
  rw [← hsb] at hd
  refine ⟨full, hfull, by rw [hd.1, hd.2], hd.1, hd.1, ?_, ?_, ?_⟩
  · rw [hd.1]
    unfold dev_t.ofInt
    exact ⟨Int.emod_nonneg _ (by norm_num), Int.emod_lt_of_pos _ (by norm_num)⟩
  · intro k hk hc
    rw [hd.1]
    unfold Stat.drive
    rcases hc with hc | hc <;> rw [hc] <;> interval_cases k <;> decide
  · intro hs
    rw [hd.1]
    unfold Stat.drive
    rw [if_pos hs]
    decide

/-- Witness of the device id: `C:\f` on `hardLinkHost` reports device 2. -/
theorem Stat_device_id_witness :
    Stat cfg0 hardLinkHost (some "C:\\f".toList) (some stat.zero)
      = (.val 0, some ((Stat cfg0 hardLinkHost (some "C:\\f".toList)
          (some stat.zero)).2.getD stat.zero)) ∧
    ∃ full, hardLinkHost.GetFullPathName "C:\\f".toList = some full ∧
      ((Stat cfg0 hardLinkHost (some "C:\\f".toList) (some stat.zero)).2.getD stat.zero).st_dev
        = (Stat.drive full - 1) % 2 ^ 32 :=
  ⟨by decide,
    have h := Stat_device_id cfg0 hardLinkHost "C:\\f".toList stat.zero
      ((Stat cfg0 hardLinkHost (some "C:\\f".toList) (some stat.zero)).2.getD stat.zero) 0
      (by decide)
    h.imp (fun _ hf => ⟨hf.1, hf.2.2.2.1⟩)⟩

/-- C29 (the code at the failing input): descriptor 4 has a disk-type
handle whose `GetFileInformationByHandle` fails; `w32_fstat` returns 0 and
leaves the zeroed record, whose mode carries none of the five type tags. -/
theorem w32_fstat_disk_no_info_no_tag :
    diskNoInfoHost.get_osfhandle 4 = some 100 ∧
    diskNoInfoHost.GetFileType 100 = FILE_TYPE_DISK ∧
    diskNoInfoHost.GetFileInformationByHandle 100 = none ∧
    w32_fstat cfg0 diskNoInfoHost 4 (some stat.zero) = (.ok (), some stat.zero) ∧
    stat.zero.st_mode &&& S_IFMT ≠ S_IFREG ∧ stat.zero.st_mode &&& S_IFMT ≠ S_IFDIR ∧
    stat.zero.st_mode &&& S_IFMT ≠ S_IFLNK ∧ stat.zero.st_mode &&& S_IFMT ≠ S_IFIFO ∧
    stat.zero.st_mode &&& S_IFMT ≠ S_IFCHR := by
  decide

/-- C30, as stated, fails: the size stored is not the low-order word itself
once that word reaches `2^31`. A file of `2^31` bytes reports -2147483648,
and a file of `2^32 + 2^31` bytes, whose size modulo `2^32` is `2^31`,
reports -2147483648 as well. -/
theorem ApplySize_negative_size :
    (ApplySize stat.zero (2 ^ 31) 0).st_size = -2147483648 ∧
    (ApplySize stat.zero (2 ^ 31) 0).st_size ≠ ((2 ^ 31 : Nat) : Int) ∧
    (ApplySize stat.zero (2 ^ 31) 1).st_size = -2147483648 ∧
    (ApplySize stat.zero (2 ^ 31) 1).st_size ≠ (((1 * 2 ^ 32 + 2 ^ 31) % 2 ^ 32 : Nat) : Int) := by
  decide

/-- C30, amended: the size `ApplySize` stores is the low-order word
converted to the 32-bit signed `st_size`, whatever the high-order word is:
the low word itself when it is below `2^31`, the low word minus `2^32` from
there on. Two size pairs with the same low word give the same record, the
stored size is within the range of `off_t`, and it is congruent modulo `2^32`
to the file size `high * 2^32 + low`. Every other member is kept. -/
theorem ApplySize_low_word (sb : stat) (low high : Nat) :
    (ApplySize sb low high).st_size = off_t.ofDWORD low ∧
    (∀ high1, ApplySize sb low high1 = ApplySize sb low high) ∧
    (low < 2 ^ 31 → (ApplySize sb low high).st_size = (low : Int)) ∧
    (2 ^ 31 ≤ low → low < 2 ^ 32 → (ApplySize sb low high).st_size = (low : Int) - 2 ^ 32) ∧
    (-(2 ^ 31) ≤ (ApplySize sb low high).st_size ∧ (ApplySize sb low high).st_size < 2 ^ 31) ∧
    (low < 2 ^ 32 →
      (ApplySize sb low high).st_size % 2 ^ 32 = ((high * 2 ^ 32 + low : Nat) : Int) % 2 ^ 32) ∧
    ApplySize sb low high = { sb with st_size := off_t.ofDWORD low } := by
  have hsz : (ApplySize sb low high).st_size = off_t.ofDWORD low := rfl
  refine ⟨rfl, fun _ => rfl, ?_, ?_, ?_, ?_, rfl⟩
  · intro hl
    rw [hsz]
    unfold off_t.ofDWORD
    rw [Nat.mod_eq_of_lt (by omega), if_pos hl]
  · intro h1 h2
    rw [hsz]
    unfold off_t.ofDWORD
    rw [Nat.mod_eq_of_lt h2, if_neg (by omega)]
  · rw [hsz]
    unfold off_t.ofDWORD
    have := Nat.mod_lt low (show 0 < 2 ^ 32 by norm_num)
    split_ifs <;> omega
  · intro hl
    rw [hsz]
    unfold off_t.ofDWORD
    rw [Nat.mod_eq_of_lt hl]
    split_ifs <;> omega

/-- Witness of the size: a file of `2^32 + 5` bytes reports 5, and a file of
`2^31 + 5` bytes reports `5 - 2^31`. -/
theorem ApplySize_low_word_witness :
    (5 : Nat) < 2 ^ 31 ∧ (ApplySize stat.zero 5 1).st_size = 5 ∧
    2 ^ 31 ≤ 2 ^ 31 + 5 ∧ 2 ^ 31 + 5 < 2 ^ 32 ∧
    (ApplySize stat.zero (2 ^ 31 + 5) 0).st_size = ((2 ^ 31 + 5 : Nat) : Int) - 2 ^ 32 :=
  ⟨by decide, (ApplySize_low_word stat.zero 5 1).2.2.1 (by decide),
    by decide, by decide,
    (ApplySize_low_word stat.zero (2 ^ 31 + 5) 0).2.2.2.1 (by decide) (by decide)⟩

end Mcwin32
